import Mathlib

/-!
# Quadrotor dynamics (`src/drone.cpp`): embedding and verified properties

The C++ `double` is idealised as an arbitrary field `K`; the three libm
functions that `drone.cpp` calls (`sin`, `cos`, `tan`) are passed as a record,
so every definition below is an ordinary computable function.  The theorems
instantiate `K` with the real numbers and the record with the real
trigonometric functions.  Division is the total division of the field.

Eigen vectors and matrices of fixed size are structures with one field per
coefficient; the state indices `PX .. WZ` and input indices `U1 .. U4` of the
source are the field names.
-/

namespace dyn

/-- The libm functions called by `drone.cpp`. -/
structure Libm (K : Type) where
  sin : K → K
  cos : K → K
  tan : K → K

/-- An `Eigen::Vector3d`. -/
structure Vec3 (K : Type) where
  x : K
  y : K
  z : K

/-- An `Eigen::Matrix3d`, coefficient `mij` being row `i`, column `j`. -/
structure Mat3 (K : Type) where
  m00 : K
  m01 : K
  m02 : K
  m10 : K
  m11 : K
  m12 : K
  m20 : K
  m21 : K
  m22 : K

/-- The state vector `xVec`: position, attitude, body velocity, angular rate. -/
structure xVec (K : Type) where
  PX : K
  PY : K
  PZ : K
  RX : K
  RY : K
  RZ : K
  VX : K
  VY : K
  VZ : K
  WX : K
  WY : K
  WZ : K

/-- The input vector `uVec`, used both for motor commands and for the
force/torque vector. -/
structure uVec (K : Type) where
  U1 : K
  U2 : K
  U3 : K
  U4 : K

/-- A 4x4 matrix (the mixer), stored by rows. -/
structure Mat4 (K : Type) where
  r1 : uVec K
  r2 : uVec K
  r3 : uVec K
  r4 : uVec K

section Algebra

variable {K : Type} [Field K]

namespace Vec3

/-- Vector sum. -/
def add (a b : Vec3 K) : Vec3 K := ⟨a.x + b.x, a.y + b.y, a.z + b.z⟩

/-- Vector difference. -/
def sub (a b : Vec3 K) : Vec3 K := ⟨a.x - b.x, a.y - b.y, a.z - b.z⟩

/-- Product `v * c` of a vector with a scalar. -/
def scale (v : Vec3 K) (c : K) : Vec3 K := ⟨v.x * c, v.y * c, v.z * c⟩

/-- Product `c * v` of a scalar with a vector. -/
def smul (c : K) (v : Vec3 K) : Vec3 K := ⟨c * v.x, c * v.y, c * v.z⟩

/-- Quotient `v / c` of a vector by a scalar. -/
def sdiv (v : Vec3 K) (c : K) : Vec3 K := ⟨v.x / c, v.y / c, v.z / c⟩

/-- The cross product `a.cross(b)`. -/
def cross (a b : Vec3 K) : Vec3 K :=
  ⟨a.y * b.z - a.z * b.y, a.z * b.x - a.x * b.z, a.x * b.y - a.y * b.x⟩

end Vec3

namespace Mat3

/-- `Eigen::Matrix3d::Identity()`. -/
def identity : Mat3 K := ⟨1, 0, 0, 0, 1, 0, 0, 0, 1⟩

/-- Matrix-vector product. -/
def mulVec (a : Mat3 K) (v : Vec3 K) : Vec3 K :=
  ⟨a.m00 * v.x + a.m01 * v.y + a.m02 * v.z,
   a.m10 * v.x + a.m11 * v.y + a.m12 * v.z,
   a.m20 * v.x + a.m21 * v.y + a.m22 * v.z⟩

/-- Transposed matrix. -/
def transpose (a : Mat3 K) : Mat3 K :=
  ⟨a.m00, a.m10, a.m20, a.m01, a.m11, a.m21, a.m02, a.m12, a.m22⟩

/-- The comma initialiser `a.block<3,2>(0,1) << b01, b02, b11, b12, b21, b22`:
columns 1 and 2 are overwritten, column 0 is kept. -/
def setBlock32 (a : Mat3 K) (b01 b02 b11 b12 b21 b22 : K) : Mat3 K :=
  ⟨a.m00, b01, b02, a.m10, b11, b12, a.m20, b21, b22⟩

end Mat3

namespace xVec

/-- `setZero(STATE_SIZE,1)`. -/
def zero : xVec K := ⟨0, 0, 0, 0, 0, 0, 0, 0, 0, 0, 0, 0⟩

/-- Sum of two state vectors. -/
def add (a b : xVec K) : xVec K :=
  ⟨a.PX + b.PX, a.PY + b.PY, a.PZ + b.PZ, a.RX + b.RX, a.RY + b.RY, a.RZ + b.RZ,
   a.VX + b.VX, a.VY + b.VY, a.VZ + b.VZ, a.WX + b.WX, a.WY + b.WY, a.WZ + b.WZ⟩

/-- Product `c * v` of a scalar with a state vector. -/
def smul (c : K) (v : xVec K) : xVec K :=
  ⟨c * v.PX, c * v.PY, c * v.PZ, c * v.RX, c * v.RY, c * v.RZ,
   c * v.VX, c * v.VY, c * v.VZ, c * v.WX, c * v.WY, c * v.WZ⟩

/-- `x.segment<3>(VX)`. -/
def segV (v : xVec K) : Vec3 K := ⟨v.VX, v.VY, v.VZ⟩

/-- `x.segment<3>(WX)`. -/
def segW (v : xVec K) : Vec3 K := ⟨v.WX, v.WY, v.WZ⟩

/-- Assignment `k.segment<3>(PX) = a`. -/
def setSegP (k : xVec K) (a : Vec3 K) : xVec K := { k with PX := a.x, PY := a.y, PZ := a.z }

/-- Assignment `k.segment<3>(RX) = a`. -/
def setSegR (k : xVec K) (a : Vec3 K) : xVec K := { k with RX := a.x, RY := a.y, RZ := a.z }

/-- Assignment `k.segment<3>(VX) = a`. -/
def setSegV (k : xVec K) (a : Vec3 K) : xVec K := { k with VX := a.x, VY := a.y, VZ := a.z }

/-- Assignment `k.segment<3>(WX) = a`. -/
def setSegW (k : xVec K) (a : Vec3 K) : xVec K := { k with WX := a.x, WY := a.y, WZ := a.z }

end xVec

namespace uVec

/-- `u.segment<3>(U2)`: the three torque entries. -/
def segTau (u : uVec K) : Vec3 K := ⟨u.U2, u.U3, u.U4⟩

/-- Dot product of a matrix row with a vector. -/
def dot (r v : uVec K) : K := r.U1 * v.U1 + r.U2 * v.U2 + r.U3 * v.U3 + r.U4 * v.U4

end uVec

/-- Product of a 4x4 matrix with a 4-vector. -/
def Mat4.mulVec (a : Mat4 K) (v : uVec K) : uVec K :=
  ⟨a.r1.dot v, a.r2.dot v, a.r3.dot v, a.r4.dot v⟩

end Algebra

/-! ## The quaternion helper library -/

section Quat

variable {K : Type} [Field K]

/-- Modelled from the spec: `quat.hpp` is not among the sources.  The spec
describes the attitude rotation as the standard three-axis Euler rotation
composition; a `Quat` is represented by the body-to-world rotation matrix it
stands for. -/
structure Quat (K : Type) where
  R : Mat3 K

/-- Modelled from the spec: `quat::Quat<double>::from_euler(roll, pitch, yaw)`
of the missing `quat.hpp`, as the standard body-to-world rotation
`Rz(yaw) * Ry(pitch) * Rx(roll)` (the rotation whose values the test
`AskedToUpdateRotation_UpdatesCorrectly` lists). -/
def Quat.from_euler (m : Libm K) (roll pitch yaw : K) : Quat K :=
  let cp := m.cos roll
  let sp := m.sin roll
  let ct := m.cos pitch
  let st := m.sin pitch
  let cs := m.cos yaw
  let ss := m.sin yaw
  ⟨⟨ct * cs, sp * st * cs - cp * ss, cp * st * cs + sp * ss,
    ct * ss, sp * st * ss + cp * cs, cp * st * ss - sp * cs,
    -st, sp * ct, cp * ct⟩⟩

/-- Modelled from the spec: `rota` of the missing `quat.hpp`, the active
rotation, which takes a body-frame vector to the world frame ("body-to-world
rotation of the body-frame velocity"). -/
def Quat.rota (q : Quat K) (v : Vec3 K) : Vec3 K := q.R.mulVec v

/-- Modelled from the spec: `rotp` of the missing `quat.hpp`, the passive
rotation, which takes a world-frame vector into the body frame ("gravity
vector rotated into the body frame"). -/
def Quat.rotp (q : Quat K) (v : Vec3 K) : Vec3 K := q.R.transpose.mulVec v

/-- Modelled from the spec: the constant `quat::e3` of the missing `quat.hpp`,
the unit vector of the body vertical ("down") axis. -/
def e3 : Vec3 K := ⟨0, 0, 1⟩

end Quat

/-! ## The drone -/

/-- The parameter block `m_p`.  Its default values are declared in
`drone.hpp`, which is not among the sources; they are left as parameters. -/
structure Params (K : Type) where
  mass : K
  grav : K
  mu : K
  k1 : K
  k2 : K
  arm_len : K
  inertia : Mat3 K
  inertia_inv : Mat3 K
  mixer : Mat4 K

/-- The integrator workspace `m_rk4`. -/
structure RK4 (K : Type) where
  dt : K
  k1 : xVec K
  k2 : xVec K
  k3 : xVec K
  k4 : xVec K

/-- The data members of `Drone`. -/
structure Drone (K : Type) where
  m_p : Params K
  m_states : xVec K
  m_att_R : Mat3 K
  m_rk4 : RK4 K

section Code

variable {K : Type} [Field K]

/-- `Drone::Drone()`.  The arguments are what the constructor does not set:
the default parameters of `drone.hpp` and the uninitialised workspace. -/
def Drone.init (p : Params K) (ws : RK4 K) : Drone K :=
  { m_p := { p with mixer :=
      ⟨⟨p.k1, p.k1, p.k1, p.k1⟩,
       ⟨0, -p.arm_len * p.k1, 0, p.arm_len * p.k1⟩,
       ⟨p.arm_len * p.k1, 0, -p.arm_len * p.k1, 0⟩,
       ⟨-p.k2, p.k2, -p.k2, p.k2⟩⟩ }
    m_states := xVec.zero
    m_att_R := Mat3.identity
    m_rk4 := { ws with dt := 1 / 10 } }

/-- `Drone::derivatives(x, u, k)`.  Of the object it reads `m_p` and reads and
writes `m_att_R`; `k` is the output argument, passed in with its old value.
The result is the new `m_att_R` and the new `k`.  The locals `ud`, `vd`, `wd`,
`x_grav`, `y_grav`, `z_grav` of the source are computed and never used. -/
def derivatives (m : Libm K) (m_p : Params K) (m_att_R : Mat3 K)
    (x : xVec K) (u : uVec K) (k : xVec K) : Mat3 K × xVec K :=
  let q_i2b := Quat.from_euler m x.RX (3 / 10) x.RZ
  let k := k.setSegP (q_i2b.rota x.segV)
  let k := { k with PZ := k.PZ * (-1) }
  let m_att_R := m_att_R.setBlock32
    (m.sin x.RX * m.tan x.RY) (m.cos x.RX * m.tan x.RY)
    (m.cos x.RX) (-(m.sin x.RX))
    (m.sin x.RX / m.cos x.RY) (m.cos x.RX / m.cos x.RY)
  let k := k.setSegR (m_att_R.mulVec x.segW)
  let rotated_grav := q_i2b.rotp (e3.scale m_p.grav)
  let k := k.setSegV (((x.segV.cross x.segW).add rotated_grav).sub
    (((e3.scale u.U1).sub (Vec3.smul m_p.mu x.segV)).sdiv m_p.mass))
  let k := k.setSegW (m_p.inertia_inv.mulVec
    (u.segTau.sub (x.segW.cross (m_p.inertia.mulVec x.segW))))
  (m_att_R, k)

/-- The local `rotated_grav` of `Drone::derivatives` (line 79). -/
def derivatives_rotated_grav (m : Libm K) (m_p : Params K) (x : xVec K) : Vec3 K :=
  (Quat.from_euler m x.RX (3 / 10) x.RZ).rotp (e3.scale m_p.grav)

/-- `Drone::sendMotorCmds(inputs)`. -/
def Drone.sendMotorCmds (m : Libm K) (d : Drone K) (inputs : uVec K) : Drone K :=
  let force_tau := d.m_p.mixer.mulVec inputs
  let s1 := derivatives m d.m_p d.m_att_R d.m_states force_tau d.m_rk4.k1
  let k1 := s1.2
  let s2 := derivatives m d.m_p s1.1
    (d.m_states.add (xVec.smul (d.m_rk4.dt / 2) k1)) force_tau d.m_rk4.k2
  let k2 := s2.2
  let s3 := derivatives m d.m_p s2.1
    (d.m_states.add (xVec.smul (d.m_rk4.dt / 2) k2)) force_tau d.m_rk4.k3
  let k3 := s3.2
  let s4 := derivatives m d.m_p s3.1
    (d.m_states.add (xVec.smul (d.m_rk4.dt) k3)) force_tau d.m_rk4.k4
  let k4 := s4.2
  { m_p := d.m_p
    m_states := d.m_states.add (xVec.smul (d.m_rk4.dt / 6)
      (((k1.add (xVec.smul 2 k2)).add (xVec.smul 2 k3)).add k4))
    m_att_R := s4.1
    m_rk4 := { dt := d.m_rk4.dt, k1 := k1, k2 := k2, k3 := k3, k4 := k4 } }

/-- `Drone::getStates()`. -/
def Drone.getStates (d : Drone K) : xVec K := d.m_states

/-- The calls `sendMotorCmds(u)` for each `u` of a list, in order. -/
def Drone.run (m : Libm K) (d : Drone K) (cmds : List (uVec K)) : Drone K :=
  cmds.foldl (Drone.sendMotorCmds m) d

/-- The test loop `for (i = 0; i < n; i++) sendMotorCmds(u)`. -/
def Drone.sendMotorCmdsN (m : Libm K) (d : Drone K) (u : uVec K) : Nat → Drone K
  | 0 => d
  | n + 1 => (Drone.sendMotorCmdsN m d u n).sendMotorCmds m u

/-- The derivative function `f(x, forceTorque)`: the output `k` of
`Drone::derivatives` on a freshly constructed `m_att_R`. -/
def f (m : Libm K) (m_p : Params K) (x : xVec K) (u : uVec K) : xVec K :=
  (derivatives m m_p Mat3.identity x u xVec.zero).2

/-- One classical fourth-order Runge-Kutta step of size `dt` for `x' = g x`. -/
def rk4 (g : xVec K → xVec K) (dt : K) (x : xVec K) : xVec K :=
  let k1 := g x
  let k2 := g (x.add (xVec.smul (dt / 2) k1))
  let k3 := g (x.add (xVec.smul (dt / 2) k2))
  let k4 := g (x.add (xVec.smul dt k3))
  x.add (xVec.smul (dt / 6) (((k1.add (xVec.smul 2 k2)).add (xVec.smul 2 k3)).add k4))

/-- The first column of `m_att_R` is `(1, 0, 0)`. -/
def Mat3.col0Unit (a : Mat3 K) : Prop := a.m00 = 1 ∧ a.m10 = 0 ∧ a.m20 = 0

/-- Both the inertia tensor and its stored inverse are diagonal. -/
def Params.diagonal (p : Params K) : Prop :=
  p.inertia.m01 = 0 ∧ p.inertia.m02 = 0 ∧ p.inertia.m10 = 0 ∧
  p.inertia.m12 = 0 ∧ p.inertia.m20 = 0 ∧ p.inertia.m21 = 0 ∧
  p.inertia_inv.m01 = 0 ∧ p.inertia_inv.m02 = 0 ∧ p.inertia_inv.m10 = 0 ∧
  p.inertia_inv.m12 = 0 ∧ p.inertia_inv.m20 = 0 ∧ p.inertia_inv.m21 = 0

/-- A set of states that contains sums and scalar multiples of its members. -/
def xVec.Closed (P : xVec K → Prop) : Prop :=
  (∀ a b, P a → P b → P (a.add b)) ∧ (∀ c a, P a → P (xVec.smul c a))

/-- A coordinate functional on states: it commutes with sums and scalar multiples. -/
def xVec.Coord (c : xVec K → K) : Prop :=
  (∀ a b, c (a.add b) = c a + c b) ∧ (∀ t a, c (xVec.smul t a) = t * c a)

/-- States with zero roll and zero angular rate. -/
def xVec.levelInv (x : xVec K) : Prop := x.RX = 0 ∧ x.WX = 0 ∧ x.WY = 0 ∧ x.WZ = 0

/-- States with zero roll, pitch, roll rate and pitch rate. -/
def xVec.yawInv (x : xVec K) : Prop := x.RX = 0 ∧ x.RY = 0 ∧ x.WX = 0 ∧ x.WY = 0

/-- States with zero pitch, yaw, pitch rate and yaw rate. -/
def xVec.rollInv (x : xVec K) : Prop := x.RY = 0 ∧ x.RZ = 0 ∧ x.WY = 0 ∧ x.WZ = 0

/-- `x.segment<3>(PX)`. -/
def xVec.segP (v : xVec K) : Vec3 K := ⟨v.PX, v.PY, v.PZ⟩

/-- `x.segment<3>(RX)`. -/
def xVec.segR (v : xVec K) : Vec3 K := ⟨v.RX, v.RY, v.RZ⟩

/-- Difference of two state vectors. -/
def xVec.sub (a b : xVec K) : xVec K :=
  ⟨a.PX - b.PX, a.PY - b.PY, a.PZ - b.PZ, a.RX - b.RX, a.RY - b.RY, a.RZ - b.RZ,
   a.VX - b.VX, a.VY - b.VY, a.VZ - b.VZ, a.WX - b.WX, a.WY - b.WY, a.WZ - b.WZ⟩

/-- The state `x` with its position entries shifted by `D`. -/
def xVec.shiftP (D : Vec3 K) (x : xVec K) : xVec K :=
  { x with PX := x.PX + D.x, PY := x.PY + D.y, PZ := x.PZ + D.z }

/-- Two states agree on attitude and angular rate. -/
def xVec.rotEq (a b : xVec K) : Prop :=
  a.RX = b.RX ∧ a.RY = b.RY ∧ a.RZ = b.RZ ∧ a.WX = b.WX ∧ a.WY = b.WY ∧ a.WZ = b.WZ

/-- The angular rate of a state lies along a single body axis. -/
def xVec.singleAxisRate (x : xVec K) : Prop :=
  (x.WY = 0 ∧ x.WZ = 0) ∨ (x.WX = 0 ∧ x.WZ = 0) ∨ (x.WX = 0 ∧ x.WY = 0)

/-- A matrix whose off-diagonal coefficients are zero. -/
def Mat3.isDiag (a : Mat3 K) : Prop :=
  a.m01 = 0 ∧ a.m02 = 0 ∧ a.m10 = 0 ∧ a.m12 = 0 ∧ a.m20 = 0 ∧ a.m21 = 0

/-- The standard body-rate-to-Euler-rate transform for roll `phi` and pitch
`theta`, as the comment of lines 57-58 of `drone.cpp` writes it. -/
def eulerRateMatrix (m : Libm K) (phi theta : K) : Mat3 K :=
  ⟨1, m.sin phi * m.tan theta, m.cos phi * m.tan theta,
   0, m.cos phi, -m.sin phi,
   0, m.sin phi / m.cos theta, m.cos phi / m.cos theta⟩

/-- The force/torque vector the claim writes for a command `u`. -/
def mixerMap (p : Params K) (u : uVec K) : uVec K :=
  ⟨p.k1 * (u.U1 + u.U2 + u.U3 + u.U4), p.arm_len * p.k1 * (u.U4 - u.U2),
   p.arm_len * p.k1 * (u.U1 - u.U3), p.k2 * (-u.U1 + u.U2 - u.U3 + u.U4)⟩

/-- The quotient `a / b` of the source with the divisor checked: `none` when
the divisor is zero. -/
def divChecked [DecidableEq K] (a b : K) : Option K :=
  if b = 0 then none else some (a / b)

/-- Lines 62-65 of `Drone::derivatives` with both divisions checked: the new
`m_att_R` and the attitude block, or `none` when a divisor is zero. -/
def derivatives_att_checked [DecidableEq K] (m : Libm K) (m_att_R : Mat3 K)
    (x : xVec K) : Option (Mat3 K × Vec3 K) :=
  (divChecked (m.sin x.RX) (m.cos x.RY)).bind fun b21 =>
  (divChecked (m.cos x.RX) (m.cos x.RY)).bind fun b22 =>
  some (m_att_R.setBlock32
      (m.sin x.RX * m.tan x.RY) (m.cos x.RX * m.tan x.RY)
      (m.cos x.RX) (-(m.sin x.RX)) b21 b22,
    (m_att_R.setBlock32
      (m.sin x.RX * m.tan x.RY) (m.cos x.RX * m.tan x.RY)
      (m.cos x.RX) (-(m.sin x.RX)) b21 b22).mulVec x.segW)

/-- The call `this->derivatives(x, u, k)` as a transformer of the object: only
the member `m_att_R` is assigned; the second component is the new `k`. -/
def Drone.callDerivatives (m : Libm K) (d : Drone K) (x : xVec K) (u : uVec K)
    (k : xVec K) : Drone K × xVec K :=
  ({ d with m_att_R := (derivatives m d.m_p d.m_att_R x u k).1 },
    (derivatives m d.m_p d.m_att_R x u k).2)

/-- A sequence of calls of `derivatives` on the object, each with its own
arguments `(x, u, k)`. -/
def Drone.callsDerivatives (m : Libm K) (d : Drone K)
    (calls : List (xVec K × uVec K × xVec K)) : Drone K :=
  calls.foldl (fun e c => (e.callDerivatives m c.1 c.2.1 c.2.2).1) d

/-- Sample parameter values for concrete evaluations (the defaults of
`drone.hpp` are not among the sources): mass 3, gravity 9.81, drag 0.1, thrust
coefficient making 0.55 the hover command, diagonal inertia. -/
def sampleParams : Params K :=
  { mass := 3
    grav := 981 / 100
    mu := 1 / 10
    k1 := 2943 / 220
    k2 := 1 / 5
    arm_len := 3 / 10
    inertia := ⟨53 / 1000, 0, 0, 0, 53 / 1000, 0, 0, 0, 98 / 1000⟩
    inertia_inv := ⟨1000 / 53, 0, 0, 0, 1000 / 53, 0, 0, 0, 1000 / 98⟩
    mixer := ⟨⟨0, 0, 0, 0⟩, ⟨0, 0, 0, 0⟩, ⟨0, 0, 0, 0⟩, ⟨0, 0, 0, 0⟩⟩ }

/-- A sample content of the integrator workspace before the constructor runs. -/
def sampleWs : RK4 K := ⟨0, xVec.zero, xVec.zero, xVec.zero, xVec.zero⟩

end Code

/-! ## Structure of `derivatives` and `sendMotorCmds` -/

section Structure

variable {K : Type} [Field K]

theorem derivatives_fst_col0 (m : Libm K) (p : Params K) (R : Mat3 K)
    (x : xVec K) (u : uVec K) (k : xVec K) (h : R.col0Unit) :
    (derivatives m p R x u k).1.col0Unit := h

theorem derivatives_snd (m : Libm K) (p : Params K) (R : Mat3 K)
    (x : xVec K) (u : uVec K) (k : xVec K) (h : R.col0Unit) :
    (derivatives m p R x u k).2 = f m p x u := by
  obtain ⟨h0, h1, h2⟩ := h
  simp only [derivatives, f, Mat3.setBlock32, Mat3.identity, xVec.setSegP, xVec.setSegR,
    xVec.setSegV, xVec.setSegW, h0, h1, h2]

theorem sendMotorCmds_m_p (m : Libm K) (d : Drone K) (u : uVec K) :
    (d.sendMotorCmds m u).m_p = d.m_p := rfl

theorem sendMotorCmds_dt (m : Libm K) (d : Drone K) (u : uVec K) :
    (d.sendMotorCmds m u).m_rk4.dt = d.m_rk4.dt := rfl

theorem sendMotorCmds_col0 (m : Libm K) (d : Drone K) (u : uVec K)
    (h : d.m_att_R.col0Unit) : (d.sendMotorCmds m u).m_att_R.col0Unit := h

theorem sendMotorCmds_states (m : Libm K) (d : Drone K) (u : uVec K)
    (h : d.m_att_R.col0Unit) :
    (d.sendMotorCmds m u).m_states =
      rk4 (fun y => f m d.m_p y (d.m_p.mixer.mulVec u)) d.m_rk4.dt d.m_states := by
  have e1 := derivatives_snd m d.m_p d.m_att_R d.m_states (d.m_p.mixer.mulVec u) d.m_rk4.k1 h
  have c1 := derivatives_fst_col0 m d.m_p d.m_att_R d.m_states (d.m_p.mixer.mulVec u)
    d.m_rk4.k1 h
  simp only [Drone.sendMotorCmds, rk4]
  rw [e1]
  rw [derivatives_snd m d.m_p _ _ _ _ c1]
  have c2 := derivatives_fst_col0 m d.m_p _
    (d.m_states.add (xVec.smul (d.m_rk4.dt / 2) (f m d.m_p d.m_states (d.m_p.mixer.mulVec u))))
    (d.m_p.mixer.mulVec u) d.m_rk4.k2 c1
  rw [derivatives_snd m d.m_p _ _ _ _ c2]
  have c3 := derivatives_fst_col0 m d.m_p _
    (d.m_states.add (xVec.smul (d.m_rk4.dt / 2) (f m d.m_p (d.m_states.add (xVec.smul
      (d.m_rk4.dt / 2) (f m d.m_p d.m_states (d.m_p.mixer.mulVec u)))) (d.m_p.mixer.mulVec u))))
    (d.m_p.mixer.mulVec u) d.m_rk4.k3 c2
  rw [derivatives_snd m d.m_p _ _ _ _ c3]

/-! ### The twelve entries of `f` -/

theorem f_PX (m : Libm K) (p : Params K) (x : xVec K) (u : uVec K) :
    (f m p x u).PX =
      m.cos (3 / 10) * m.cos x.RZ * x.VX +
      (m.sin x.RX * m.sin (3 / 10) * m.cos x.RZ - m.cos x.RX * m.sin x.RZ) * x.VY +
      (m.cos x.RX * m.sin (3 / 10) * m.cos x.RZ + m.sin x.RX * m.sin x.RZ) * x.VZ := rfl

theorem f_PY (m : Libm K) (p : Params K) (x : xVec K) (u : uVec K) :
    (f m p x u).PY =
      m.cos (3 / 10) * m.sin x.RZ * x.VX +
      (m.sin x.RX * m.sin (3 / 10) * m.sin x.RZ + m.cos x.RX * m.cos x.RZ) * x.VY +
      (m.cos x.RX * m.sin (3 / 10) * m.sin x.RZ - m.sin x.RX * m.cos x.RZ) * x.VZ := rfl

theorem f_PZ (m : Libm K) (p : Params K) (x : xVec K) (u : uVec K) :
    (f m p x u).PZ =
      (-m.sin (3 / 10) * x.VX + m.sin x.RX * m.cos (3 / 10) * x.VY +
        m.cos x.RX * m.cos (3 / 10) * x.VZ) * (-1) := rfl

theorem f_RX (m : Libm K) (p : Params K) (x : xVec K) (u : uVec K) :
    (f m p x u).RX =
      1 * x.WX + m.sin x.RX * m.tan x.RY * x.WY + m.cos x.RX * m.tan x.RY * x.WZ := rfl

theorem f_RY (m : Libm K) (p : Params K) (x : xVec K) (u : uVec K) :
    (f m p x u).RY = 0 * x.WX + m.cos x.RX * x.WY + -m.sin x.RX * x.WZ := rfl

theorem f_RZ (m : Libm K) (p : Params K) (x : xVec K) (u : uVec K) :
    (f m p x u).RZ =
      0 * x.WX + m.sin x.RX / m.cos x.RY * x.WY + m.cos x.RX / m.cos x.RY * x.WZ := rfl

theorem f_VX (m : Libm K) (p : Params K) (x : xVec K) (u : uVec K) :
    (f m p x u).VX =
      x.VY * x.WZ - x.VZ * x.WY +
      (m.cos (3 / 10) * m.cos x.RZ * (0 * p.grav) + m.cos (3 / 10) * m.sin x.RZ * (0 * p.grav) +
        -m.sin (3 / 10) * (1 * p.grav)) -
      (0 * u.U1 - p.mu * x.VX) / p.mass := rfl

theorem f_VY (m : Libm K) (p : Params K) (x : xVec K) (u : uVec K) :
    (f m p x u).VY =
      x.VZ * x.WX - x.VX * x.WZ +
      ((m.sin x.RX * m.sin (3 / 10) * m.cos x.RZ - m.cos x.RX * m.sin x.RZ) * (0 * p.grav) +
        (m.sin x.RX * m.sin (3 / 10) * m.sin x.RZ + m.cos x.RX * m.cos x.RZ) * (0 * p.grav) +
        m.sin x.RX * m.cos (3 / 10) * (1 * p.grav)) -
      (0 * u.U1 - p.mu * x.VY) / p.mass := rfl

theorem f_VZ (m : Libm K) (p : Params K) (x : xVec K) (u : uVec K) :
    (f m p x u).VZ =
      x.VX * x.WY - x.VY * x.WX +
      ((m.cos x.RX * m.sin (3 / 10) * m.cos x.RZ + m.sin x.RX * m.sin x.RZ) * (0 * p.grav) +
        (m.cos x.RX * m.sin (3 / 10) * m.sin x.RZ - m.sin x.RX * m.cos x.RZ) * (0 * p.grav) +
        m.cos x.RX * m.cos (3 / 10) * (1 * p.grav)) -
      (1 * u.U1 - p.mu * x.VZ) / p.mass := rfl

theorem f_WX (m : Libm K) (p : Params K) (x : xVec K) (u : uVec K) :
    (f m p x u).WX =
      p.inertia_inv.m00 * (u.U2 - (x.WY * (p.inertia.m20 * x.WX + p.inertia.m21 * x.WY +
          p.inertia.m22 * x.WZ) - x.WZ * (p.inertia.m10 * x.WX + p.inertia.m11 * x.WY +
          p.inertia.m12 * x.WZ))) +
      p.inertia_inv.m01 * (u.U3 - (x.WZ * (p.inertia.m00 * x.WX + p.inertia.m01 * x.WY +
          p.inertia.m02 * x.WZ) - x.WX * (p.inertia.m20 * x.WX + p.inertia.m21 * x.WY +
          p.inertia.m22 * x.WZ))) +
      p.inertia_inv.m02 * (u.U4 - (x.WX * (p.inertia.m10 * x.WX + p.inertia.m11 * x.WY +
          p.inertia.m12 * x.WZ) - x.WY * (p.inertia.m00 * x.WX + p.inertia.m01 * x.WY +
          p.inertia.m02 * x.WZ))) := rfl

theorem f_WY (m : Libm K) (p : Params K) (x : xVec K) (u : uVec K) :
    (f m p x u).WY =
      p.inertia_inv.m10 * (u.U2 - (x.WY * (p.inertia.m20 * x.WX + p.inertia.m21 * x.WY +
          p.inertia.m22 * x.WZ) - x.WZ * (p.inertia.m10 * x.WX + p.inertia.m11 * x.WY +
          p.inertia.m12 * x.WZ))) +
      p.inertia_inv.m11 * (u.U3 - (x.WZ * (p.inertia.m00 * x.WX + p.inertia.m01 * x.WY +
          p.inertia.m02 * x.WZ) - x.WX * (p.inertia.m20 * x.WX + p.inertia.m21 * x.WY +
          p.inertia.m22 * x.WZ))) +
      p.inertia_inv.m12 * (u.U4 - (x.WX * (p.inertia.m10 * x.WX + p.inertia.m11 * x.WY +
          p.inertia.m12 * x.WZ) - x.WY * (p.inertia.m00 * x.WX + p.inertia.m01 * x.WY +
          p.inertia.m02 * x.WZ))) := rfl

theorem f_WZ (m : Libm K) (p : Params K) (x : xVec K) (u : uVec K) :
    (f m p x u).WZ =
      p.inertia_inv.m20 * (u.U2 - (x.WY * (p.inertia.m20 * x.WX + p.inertia.m21 * x.WY +
          p.inertia.m22 * x.WZ) - x.WZ * (p.inertia.m10 * x.WX + p.inertia.m11 * x.WY +
          p.inertia.m12 * x.WZ))) +
      p.inertia_inv.m21 * (u.U3 - (x.WZ * (p.inertia.m00 * x.WX + p.inertia.m01 * x.WY +
          p.inertia.m02 * x.WZ) - x.WX * (p.inertia.m20 * x.WX + p.inertia.m21 * x.WY +
          p.inertia.m22 * x.WZ))) +
      p.inertia_inv.m22 * (u.U4 - (x.WX * (p.inertia.m10 * x.WX + p.inertia.m11 * x.WY +
          p.inertia.m12 * x.WZ) - x.WY * (p.inertia.m00 * x.WX + p.inertia.m01 * x.WY +
          p.inertia.m02 * x.WZ))) := rfl

end Structure

/-! ## Runge-Kutta steps on an invariant subspace -/

section Steps

theorem rk4_closed {K : Type} [Field K] (g : xVec K → xVec K) (P : xVec K → Prop)
    (hP : xVec.Closed P) (hg : ∀ y, P y → P (g y)) (dt : K) (x : xVec K) (hx : P x) :
    P (rk4 g dt x) := by
  obtain ⟨hadd, hsmul⟩ := hP
  have h1 := hg x hx
  have h2 := hg _ (hadd _ _ hx (hsmul (dt / 2) _ h1))
  have h3 := hg _ (hadd _ _ hx (hsmul (dt / 2) _ h2))
  have h4 := hg _ (hadd _ _ hx (hsmul dt _ h3))
  exact hadd _ _ hx (hsmul _ _ (hadd _ _ (hadd _ _ (hadd _ _ h1 (hsmul 2 _ h2))
    (hsmul 2 _ h3)) h4))

/-- On an invariant subspace where a coordinate obeys `c' = a + b * c` with
`a < 0 ≤ b`, a step started at `c ≤ 0` lowers the coordinate by at least
`dt * |a|`. -/
theorem rk4_affine_le (g : xVec ℝ → xVec ℝ) (P : xVec ℝ → Prop)
    (hP : xVec.Closed P) (hg : ∀ y, P y → P (g y)) (c : xVec ℝ → ℝ) (hc : xVec.Coord c)
    (a b : ℝ) (hcg : ∀ y, P y → c (g y) = a + b * c y) (ha : a < 0) (hb : 0 ≤ b)
    (dt : ℝ) (hdt : 0 < dt) (x : xVec ℝ) (hx : P x) (hx0 : c x ≤ 0) :
    c (rk4 g dt x) ≤ c x + dt * a := by
  obtain ⟨hadd, hsmul⟩ := hP
  obtain ⟨ca, cs⟩ := hc
  have p1 := hg x hx
  have p2 := hadd _ _ hx (hsmul (dt / 2) _ p1)
  have p3 := hadd _ _ hx (hsmul (dt / 2) _ (hg _ p2))
  have p4 := hadd _ _ hx (hsmul dt _ (hg _ p3))
  have e1 := hcg x hx
  have e2 := hcg _ p2
  have e3 := hcg _ p3
  have e4 := hcg _ p4
  rw [ca, cs] at e2 e3 e4
  simp only [rk4, ca, cs]
  set v := c x
  set K1 := c (g x)
  set K2 := c (g (x.add (xVec.smul (dt / 2) (g x))))
  set K3 := c (g (x.add (xVec.smul (dt / 2) (g (x.add (xVec.smul (dt / 2) (g x)))))))
  set K4 := c (g (x.add (xVec.smul dt (g (x.add (xVec.smul (dt / 2)
    (g (x.add (xVec.smul (dt / 2) (g x))))))))))
  have n1 : K1 ≤ a := by rw [e1]; nlinarith [mul_nonpos_of_nonneg_of_nonpos hb hx0]
  have s2 : v + dt / 2 * K1 ≤ 0 := by nlinarith [mul_pos hdt (neg_pos.mpr (lt_of_le_of_lt n1 ha))]
  have n2 : K2 ≤ a := by rw [e2]; nlinarith [mul_nonpos_of_nonneg_of_nonpos hb s2]
  have s3 : v + dt / 2 * K2 ≤ 0 := by nlinarith [mul_pos hdt (neg_pos.mpr (lt_of_le_of_lt n2 ha))]
  have n3 : K3 ≤ a := by rw [e3]; nlinarith [mul_nonpos_of_nonneg_of_nonpos hb s3]
  have s4 : v + dt * K3 ≤ 0 := by nlinarith [mul_pos hdt (neg_pos.mpr (lt_of_le_of_lt n3 ha))]
  have n4 : K4 ≤ a := by rw [e4]; nlinarith [mul_nonpos_of_nonneg_of_nonpos hb s4]
  have : dt / 6 * (K1 + 2 * K2 + 2 * K3 + K4) ≤ dt / 6 * (6 * a) :=
    mul_le_mul_of_nonneg_left (by linarith) (by positivity)
  linarith

/-- On an invariant subspace where a rate coordinate has the constant
derivative `α` and an angle coordinate has the rate as derivative, a step is
the exact double integrator. -/
theorem rk4_double_integrator (g : xVec ℝ → xVec ℝ) (P : xVec ℝ → Prop)
    (hP : xVec.Closed P) (hg : ∀ y, P y → P (g y))
    (w r : xVec ℝ → ℝ) (hw : xVec.Coord w) (hr : xVec.Coord r) (α : ℝ)
    (hwg : ∀ y, P y → w (g y) = α) (hrg : ∀ y, P y → r (g y) = w y)
    (dt : ℝ) (x : xVec ℝ) (hx : P x) :
    w (rk4 g dt x) = w x + dt * α ∧
    r (rk4 g dt x) = r x + dt * w x + dt ^ 2 / 2 * α := by
  obtain ⟨hadd, hsmul⟩ := hP
  obtain ⟨wa, ws⟩ := hw
  obtain ⟨ra, rs⟩ := hr
  have p1 := hg x hx
  have p2 := hadd _ _ hx (hsmul (dt / 2) _ p1)
  have p3 := hadd _ _ hx (hsmul (dt / 2) _ (hg _ p2))
  have p4 := hadd _ _ hx (hsmul dt _ (hg _ p3))
  have w1 := hwg x hx
  have w2 := hwg _ p2
  have w3 := hwg _ p3
  have w4 := hwg _ p4
  have r1 := hrg x hx
  have r2 := hrg _ p2
  have r3 := hrg _ p3
  have r4 := hrg _ p4
  rw [wa, ws] at r2 r3 r4
  rw [w1] at r2
  rw [w2] at r3
  rw [w3] at r4
  constructor
  · simp only [rk4, wa, ws, w1, w2, w3, w4]
    ring
  · simp only [rk4, ra, rs, r1, r2, r3, r4]
    ring

end Steps

/-! ## Repeated calls on a freshly constructed drone -/

section Calls

variable {K : Type} [Field K]

theorem run_inv (m : Libm K) (p : Params K) (ws : RK4 K) (cmds : List (uVec K)) :
    ((Drone.init p ws).run m cmds).m_p = (Drone.init p ws).m_p ∧
    ((Drone.init p ws).run m cmds).m_rk4.dt = 1 / 10 ∧
    ((Drone.init p ws).run m cmds).m_att_R.col0Unit := by
  induction cmds using List.reverseRecOn with
  | nil => exact ⟨rfl, rfl, rfl, rfl, rfl⟩
  | append_singleton l u ih =>
    obtain ⟨h1, h2, h3⟩ := ih
    simp only [Drone.run, List.foldl_append, List.foldl_cons, List.foldl_nil] at *
    exact ⟨by rw [sendMotorCmds_m_p, h1], by rw [sendMotorCmds_dt, h2],
      sendMotorCmds_col0 m _ u h3⟩

theorem sendMotorCmdsN_inv (m : Libm K) (p : Params K) (ws : RK4 K) (u : uVec K) (n : Nat) :
    ((Drone.init p ws).sendMotorCmdsN m u n).m_p = (Drone.init p ws).m_p ∧
    ((Drone.init p ws).sendMotorCmdsN m u n).m_rk4.dt = 1 / 10 ∧
    ((Drone.init p ws).sendMotorCmdsN m u n).m_att_R.col0Unit := by
  induction n with
  | zero => exact ⟨rfl, rfl, rfl, rfl, rfl⟩
  | succ n ih =>
    obtain ⟨h1, h2, h3⟩ := ih
    simp only [Drone.sendMotorCmdsN]
    exact ⟨by rw [sendMotorCmds_m_p, h1], by rw [sendMotorCmds_dt, h2],
      sendMotorCmds_col0 m _ u h3⟩

theorem sendMotorCmdsN_succ (m : Libm K) (p : Params K) (ws : RK4 K) (u : uVec K) (n : Nat) :
    ((Drone.init p ws).sendMotorCmdsN m u (n + 1)).m_states =
      rk4 (fun y => f m (Drone.init p ws).m_p y ((Drone.init p ws).m_p.mixer.mulVec u))
        (1 / 10) ((Drone.init p ws).sendMotorCmdsN m u n).m_states := by
  obtain ⟨h1, h2, h3⟩ := sendMotorCmdsN_inv m p ws u n
  show (((Drone.init p ws).sendMotorCmdsN m u n).sendMotorCmds m u).m_states = _
  rw [sendMotorCmds_states m _ u h3, h1, h2]

theorem levelInv_closed : xVec.Closed (xVec.levelInv : xVec K → Prop) := by
  refine ⟨?_, ?_⟩
  · rintro a b ⟨a1, a2, a3, a4⟩ ⟨b1, b2, b3, b4⟩
    simp [xVec.levelInv, xVec.add, a1, a2, a3, a4, b1, b2, b3, b4]
  · rintro c a ⟨a1, a2, a3, a4⟩
    simp [xVec.levelInv, xVec.smul, a1, a2, a3, a4]

theorem f_levelInv (m : Libm K) (q : Params K) (F : uVec K)
    (h2 : F.U2 = 0) (h3 : F.U3 = 0) (h4 : F.U4 = 0) (y : xVec K) (hy : y.levelInv) :
    (f m q y F).levelInv := by
  obtain ⟨y1, y2, y3, y4⟩ := hy
  simp [xVec.levelInv, f_RX, f_WX, f_WY, f_WZ, y1, y2, y3, y4, h2, h3, h4]

theorem f_VX_of_still (m : Libm K) (q : Params K) (F : uVec K)
    (y : xVec K) (h1 : y.WY = 0) (h2 : y.WZ = 0) :
    (f m q y F).VX = -(m.sin (3 / 10) * q.grav) + q.mu / q.mass * y.VX := by
  simp only [f_VX, h1, h2]
  ring

theorem coord_VX : xVec.Coord (fun x : xVec K => x.VX) := ⟨fun _ _ => rfl, fun _ _ => rfl⟩

theorem coord_RX : xVec.Coord (fun x : xVec K => x.RX) := ⟨fun _ _ => rfl, fun _ _ => rfl⟩

theorem coord_RZ : xVec.Coord (fun x : xVec K => x.RZ) := ⟨fun _ _ => rfl, fun _ _ => rfl⟩

theorem coord_WX : xVec.Coord (fun x : xVec K => x.WX) := ⟨fun _ _ => rfl, fun _ _ => rfl⟩

theorem coord_WZ : xVec.Coord (fun x : xVec K => x.WZ) := ⟨fun _ _ => rfl, fun _ _ => rfl⟩

/-- The force/torque vector of four equal commands. -/
theorem mixer_equal (p : Params K) (ws : RK4 K) (c : K) :
    ((Drone.init p ws).m_p.mixer.mulVec ⟨c, c, c, c⟩).U1 = 4 * p.k1 * c ∧
    ((Drone.init p ws).m_p.mixer.mulVec ⟨c, c, c, c⟩).U2 = 0 ∧
    ((Drone.init p ws).m_p.mixer.mulVec ⟨c, c, c, c⟩).U3 = 0 ∧
    ((Drone.init p ws).m_p.mixer.mulVec ⟨c, c, c, c⟩).U4 = 0 := by
  simp only [Drone.init, Mat4.mulVec, uVec.dot]
  refine ⟨by ring, by ring, by ring, by ring⟩

end Calls

/-! ## Level flight: four equal commands -/

section Level

theorem sin_three_tenths_pos : 0 < Real.sin (3 / 10) :=
  Real.sin_pos_of_pos_of_lt_pi (by norm_num) (by linarith [Real.pi_gt_three])

theorem equal_levelInv {K : Type} [Field K] (m : Libm K) (p : Params K) (ws : RK4 K)
    (c : K) (n : Nat) :
    ((Drone.init p ws).sendMotorCmdsN m ⟨c, c, c, c⟩ n).m_states.levelInv := by
  induction n with
  | zero => exact ⟨rfl, rfl, rfl, rfl⟩
  | succ n ih =>
    rw [sendMotorCmdsN_succ]
    obtain ⟨-, h2, h3, h4⟩ := mixer_equal p ws c
    exact rk4_closed _ _ levelInv_closed (f_levelInv m _ _ h2 h3 h4) _ _ ih

theorem sin_three_tenths_gt : 29 / 100 < Real.sin (3 / 10) := by
  have := Real.sin_gt_sub_cube (x := 3 / 10) (by norm_num) (by norm_num)
  norm_num at this
  linarith

end Level

/-! ## Single-axis scenarios -/

section Axes

/-- On a freshly constructed drone, when the derivative function keeps an
invariant subspace on which a rate coordinate has the constant derivative `α`
and an angle coordinate has the rate as derivative, `n` calls give the rate
`n * dt * α` and the angle `α * (n * dt)^2 / 2` with `dt = 1/10`. -/
theorem calls_double_integrator (m : Libm ℝ) (p : Params ℝ) (ws : RK4 ℝ) (u : uVec ℝ)
    (P : xVec ℝ → Prop) (hP : xVec.Closed P) (h0 : P xVec.zero)
    (hg : ∀ y, P y → P (f m (Drone.init p ws).m_p y ((Drone.init p ws).m_p.mixer.mulVec u)))
    (w r : xVec ℝ → ℝ) (hw : xVec.Coord w) (hr : xVec.Coord r)
    (hw0 : w xVec.zero = 0) (hr0 : r xVec.zero = 0) (α : ℝ)
    (hwg : ∀ y, P y →
      w (f m (Drone.init p ws).m_p y ((Drone.init p ws).m_p.mixer.mulVec u)) = α)
    (hrg : ∀ y, P y →
      r (f m (Drone.init p ws).m_p y ((Drone.init p ws).m_p.mixer.mulVec u)) = w y)
    (n : Nat) :
    P ((Drone.init p ws).sendMotorCmdsN m u n).m_states ∧
    w ((Drone.init p ws).sendMotorCmdsN m u n).m_states = n / 10 * α ∧
    r ((Drone.init p ws).sendMotorCmdsN m u n).m_states = α * (n : ℝ) ^ 2 / 200 := by
  induction n with
  | zero =>
    refine ⟨h0, ?_, ?_⟩
    · show w xVec.zero = _
      rw [hw0]; simp
    · show r xVec.zero = _
      rw [hr0]; simp
  | succ n ih =>
    obtain ⟨i1, i2, i3⟩ := ih
    rw [sendMotorCmdsN_succ]
    obtain ⟨e1, e2⟩ := rk4_double_integrator _ P hP hg w r hw hr α hwg hrg (1 / 10) _ i1
    refine ⟨rk4_closed _ P hP hg _ _ i1, ?_, ?_⟩
    · rw [e1, i2]; push_cast; ring
    · rw [e2, i2, i3]; push_cast; ring

theorem yawInv_closed {K : Type} [Field K] : xVec.Closed (xVec.yawInv : xVec K → Prop) := by
  refine ⟨?_, ?_⟩
  · rintro a b ⟨a1, a2, a3, a4⟩ ⟨b1, b2, b3, b4⟩
    simp [xVec.yawInv, xVec.add, a1, a2, a3, a4, b1, b2, b3, b4]
  · rintro c a ⟨a1, a2, a3, a4⟩
    simp [xVec.yawInv, xVec.smul, a1, a2, a3, a4]

theorem rollInv_closed {K : Type} [Field K] : xVec.Closed (xVec.rollInv : xVec K → Prop) := by
  refine ⟨?_, ?_⟩
  · rintro a b ⟨a1, a2, a3, a4⟩ ⟨b1, b2, b3, b4⟩
    simp [xVec.rollInv, xVec.add, a1, a2, a3, a4, b1, b2, b3, b4]
  · rintro c a ⟨a1, a2, a3, a4⟩
    simp [xVec.rollInv, xVec.smul, a1, a2, a3, a4]

/-- With diagonal inertia and zero roll and pitch torque, the derivative
function keeps `yawInv`, has `WZ' = inertia_inv_zz * tau_z` and `RZ' = WZ`. -/
theorem f_yawInv {K : Type} [Field K] (m : Libm K) (hs : m.sin 0 = 0) (hc : m.cos 0 = 1)
    (ht : m.tan 0 = 0) (q : Params K) (hq : q.diagonal) (F : uVec K)
    (h2 : F.U2 = 0) (h3 : F.U3 = 0) (y : xVec K) (hy : y.yawInv) :
    (f m q y F).yawInv ∧ (f m q y F).WZ = q.inertia_inv.m22 * F.U4 ∧
    (f m q y F).RZ = y.WZ := by
  obtain ⟨y1, y2, y3, y4⟩ := hy
  obtain ⟨d1, d2, d3, d4, d5, d6, e1, e2, e3, e4, e5, e6⟩ := hq
  refine ⟨?_, ?_, ?_⟩
  · simp [xVec.yawInv, f_RX, f_RY, f_WX, f_WY, y1, y2, y3, y4, h2, h3, hs, ht,
      d1, d2, d3, d4, d5, d6, e1, e2, e3, e4, e5, e6]
  · simp [f_WZ, y3, y4, e5, e6]
  · simp [f_RZ, y1, y2, y4, hc]

/-- With diagonal inertia and zero pitch and yaw torque, the derivative
function keeps `rollInv`. -/
theorem f_rollInv {K : Type} [Field K] (m : Libm K) (q : Params K) (hq : q.diagonal)
    (F : uVec K) (h3 : F.U3 = 0) (h4 : F.U4 = 0) (y : xVec K) (hy : y.rollInv) :
    (f m q y F).rollInv := by
  obtain ⟨y1, y2, y3, y4⟩ := hy
  obtain ⟨d1, d2, d3, d4, d5, d6, e1, e2, e3, e4, e5, e6⟩ := hq
  simp [xVec.rollInv, f_RY, f_RZ, f_WY, f_WZ, y1, y2, y3, y4, h3, h4,
    d1, d2, d3, d4, d5, d6, e1, e2, e3, e4, e5, e6]

theorem init_diagonal {K : Type} [Field K] (p : Params K) (ws : RK4 K) (h : p.diagonal) :
    (Drone.init p ws).m_p.diagonal := h

/-- The force/torque vector of a general command, entry by entry. -/
theorem mixer_entries {K : Type} [Field K] (p : Params K) (ws : RK4 K) (u : uVec K) :
    ((Drone.init p ws).m_p.mixer.mulVec u).U1 = p.k1 * (u.U1 + u.U2 + u.U3 + u.U4) ∧
    ((Drone.init p ws).m_p.mixer.mulVec u).U2 = p.arm_len * p.k1 * (u.U4 - u.U2) ∧
    ((Drone.init p ws).m_p.mixer.mulVec u).U3 = p.arm_len * p.k1 * (u.U1 - u.U3) ∧
    ((Drone.init p ws).m_p.mixer.mulVec u).U4 = p.k2 * (-u.U1 + u.U2 - u.U3 + u.U4) := by
  simp only [Drone.init, Mat4.mulVec, uVec.dot]
  refine ⟨by ring, by ring, by ring, by ring⟩

/-- Closed form of the yaw scenario: any command with zero roll and pitch torque. -/
theorem yaw_calls (p : Params ℝ) (ws : RK4 ℝ) (u : uVec ℝ) (hp : p.diagonal)
    (h2 : u.U4 - u.U2 = 0) (h3 : u.U1 - u.U3 = 0) (n : Nat) :
    ((Drone.init p ws).sendMotorCmdsN ⟨Real.sin, Real.cos, Real.tan⟩ u n).m_states.yawInv ∧
    ((Drone.init p ws).sendMotorCmdsN ⟨Real.sin, Real.cos, Real.tan⟩ u n).m_states.WZ =
      n / 10 * (p.inertia_inv.m22 * (p.k2 * (-u.U1 + u.U2 - u.U3 + u.U4))) ∧
    ((Drone.init p ws).sendMotorCmdsN ⟨Real.sin, Real.cos, Real.tan⟩ u n).m_states.RZ =
      (p.inertia_inv.m22 * (p.k2 * (-u.U1 + u.U2 - u.U3 + u.U4))) * (n : ℝ) ^ 2 / 200 := by
  obtain ⟨-, m2, m3, m4⟩ := mixer_entries p ws u
  rw [h2, mul_zero] at m2
  rw [h3, mul_zero] at m3
  have key := fun y hy => f_yawInv (⟨Real.sin, Real.cos, Real.tan⟩ : Libm ℝ) Real.sin_zero
    Real.cos_zero Real.tan_zero (Drone.init p ws).m_p (init_diagonal p ws hp)
    ((Drone.init p ws).m_p.mixer.mulVec u) m2 m3 y hy
  refine calls_double_integrator _ p ws u xVec.yawInv yawInv_closed ⟨rfl, rfl, rfl, rfl⟩
    (fun y hy => (key y hy).1) (fun y => y.WZ) (fun y => y.RZ) coord_WZ coord_RZ rfl rfl _
    (fun y hy => ?_) (fun y hy => (key y hy).2.2) n
  rw [← m4]
  exact (key y hy).2.1

/-- On a freshly constructed drone, when the derivative function keeps an
invariant subspace on which a coordinate obeys `c' = a + b * c` with
`a < 0 ≤ b`, the coordinate is at most `n * dt * a` after `n` calls, `dt = 1/10`. -/
theorem calls_affine_le (m : Libm ℝ) (p : Params ℝ) (ws : RK4 ℝ) (u : uVec ℝ)
    (P : xVec ℝ → Prop) (hP : xVec.Closed P) (h0 : P xVec.zero)
    (hg : ∀ y, P y → P (f m (Drone.init p ws).m_p y ((Drone.init p ws).m_p.mixer.mulVec u)))
    (c : xVec ℝ → ℝ) (hc : xVec.Coord c) (hc0 : c xVec.zero = 0) (a b : ℝ)
    (hcg : ∀ y, P y →
      c (f m (Drone.init p ws).m_p y ((Drone.init p ws).m_p.mixer.mulVec u)) = a + b * c y)
    (ha : a < 0) (hb : 0 ≤ b) (n : Nat) :
    P ((Drone.init p ws).sendMotorCmdsN m u n).m_states ∧
    c ((Drone.init p ws).sendMotorCmdsN m u n).m_states ≤ n / 10 * a := by
  induction n with
  | zero =>
    refine ⟨h0, ?_⟩
    show c xVec.zero ≤ _
    rw [hc0]; simp
  | succ n ih =>
    obtain ⟨i1, i2⟩ := ih
    rw [sendMotorCmdsN_succ]
    have i3 : c ((Drone.init p ws).sendMotorCmdsN m u n).m_states ≤ 0 := by
      have : (n : ℝ) / 10 * a ≤ 0 :=
        mul_nonpos_of_nonneg_of_nonpos (by positivity) ha.le
      linarith
    have le := rk4_affine_le _ P hP hg c hc a b hcg ha hb (1 / 10) (by norm_num) _ i1 i3
    refine ⟨rk4_closed _ P hP hg _ _ i1, ?_⟩
    push_cast
    linarith

end Axes

/-! ## Which entries the derivative function reads -/

section Reads

variable {K : Type} [Field K]

theorem derivatives_shiftP (m : Libm K) (p : Params K) (R : Mat3 K) (x : xVec K)
    (u : uVec K) (k : xVec K) (D : Vec3 K) :
    derivatives m p R (x.shiftP D) u k = derivatives m p R x u k := rfl

theorem shiftP_add (x y : xVec K) (D : Vec3 K) :
    (x.shiftP D).add y = (x.add y).shiftP D := by
  simp only [xVec.shiftP, xVec.add, xVec.mk.injEq, and_true, true_and]
  refine ⟨by ring, by ring, by ring⟩

theorem rotEq_add (a a' b b' : xVec K) (h : a.rotEq a') (g : b.rotEq b') :
    (a.add b).rotEq (a'.add b') := by
  obtain ⟨h1, h2, h3, h4, h5, h6⟩ := h
  obtain ⟨g1, g2, g3, g4, g5, g6⟩ := g
  simp only [xVec.rotEq, xVec.add, h1, h2, h3, h4, h5, h6, g1, g2, g3, g4, g5, g6, and_self]

theorem rotEq_smul (c : K) (a a' : xVec K) (h : a.rotEq a') :
    (xVec.smul c a).rotEq (xVec.smul c a') := by
  obtain ⟨h1, h2, h3, h4, h5, h6⟩ := h
  simp only [xVec.rotEq, xVec.smul, h1, h2, h3, h4, h5, h6, and_self]

theorem f_rotEq (m : Libm K) (p : Params K) (y y' : xVec K) (F F' : uVec K)
    (h : y.rotEq y') (hF : F.segTau = F'.segTau) :
    (f m p y F).rotEq (f m p y' F') := by
  obtain ⟨h1, h2, h3, h4, h5, h6⟩ := h
  simp only [uVec.segTau, Vec3.mk.injEq] at hF
  obtain ⟨t2, t3, t4⟩ := hF
  simp only [xVec.rotEq, f_RX, f_RY, f_RZ, f_WX, f_WY, f_WZ, h1, h2, h3, h4, h5, h6,
    t2, t3, t4, and_self]

theorem rk4_rotEq (g g' : xVec K → xVec K)
    (hg : ∀ y y', y.rotEq y' → (g y).rotEq (g' y')) (dt : K) (x x' : xVec K)
    (hx : x.rotEq x') : (rk4 g dt x).rotEq (rk4 g' dt x') := by
  have h1 := hg _ _ hx
  have h2 := hg _ _ (rotEq_add _ _ _ _ hx (rotEq_smul (dt / 2) _ _ h1))
  have h3 := hg _ _ (rotEq_add _ _ _ _ hx (rotEq_smul (dt / 2) _ _ h2))
  have h4 := hg _ _ (rotEq_add _ _ _ _ hx (rotEq_smul dt _ _ h3))
  exact rotEq_add _ _ _ _ hx (rotEq_smul _ _ _ (rotEq_add _ _ _ _ (rotEq_add _ _ _ _
    (rotEq_add _ _ _ _ h1 (rotEq_smul 2 _ _ h2)) (rotEq_smul 2 _ _ h3)) h4))

theorem callsDerivatives_inv (m : Libm K) (d : Drone K)
    (calls : List (xVec K × uVec K × xVec K)) :
    (d.callsDerivatives m calls).m_p = d.m_p ∧
    (d.callsDerivatives m calls).m_states = d.m_states ∧
    (d.callsDerivatives m calls).m_rk4 = d.m_rk4 ∧
    (d.m_att_R.col0Unit → (d.callsDerivatives m calls).m_att_R.col0Unit) := by
  induction calls using List.reverseRecOn with
  | nil => exact ⟨rfl, rfl, rfl, fun h => h⟩
  | append_singleton l c ih =>
    obtain ⟨h1, h2, h3, h4⟩ := ih
    simp only [Drone.callsDerivatives, List.foldl_append, List.foldl_cons, List.foldl_nil] at *
    exact ⟨h1, h2, h3, fun h => h4 h⟩

end Reads

/-! ## The claims -/

section Claims

/-- C1 (the code at the equilibrium input): for every parameter set with positive
gravity, whatever `m_att_R` and the output argument held before,
`Drone::derivatives` at the all-zero state with `forceTorque = (mass*grav, 0, 0, 0)`
returns the `VX` entry `-grav * sin 0.3`, which is negative; the result is not
the zero vector. -/
theorem derivatives_equilibrium_VX (p : Params ℝ) (R : Mat3 ℝ) (k : xVec ℝ)
    (hg : 0 < p.grav) :
    (derivatives ⟨Real.sin, Real.cos, Real.tan⟩ p R xVec.zero
        ⟨p.mass * p.grav, 0, 0, 0⟩ k).2.VX = -(Real.sin (3 / 10) * p.grav) ∧
    (derivatives ⟨Real.sin, Real.cos, Real.tan⟩ p R xVec.zero
        ⟨p.mass * p.grav, 0, 0, 0⟩ k).2.VX < 0 ∧
    (derivatives ⟨Real.sin, Real.cos, Real.tan⟩ p R xVec.zero
        ⟨p.mass * p.grav, 0, 0, 0⟩ k).2 ≠ xVec.zero := by
  have e : (derivatives ⟨Real.sin, Real.cos, Real.tan⟩ p R xVec.zero
      ⟨p.mass * p.grav, 0, 0, 0⟩ k).2.VX = -(Real.sin (3 / 10) * p.grav) := by
    have e0 : (derivatives ⟨Real.sin, Real.cos, Real.tan⟩ p R xVec.zero
        ⟨p.mass * p.grav, 0, 0, 0⟩ k).2.VX =
        (f ⟨Real.sin, Real.cos, Real.tan⟩ p xVec.zero ⟨p.mass * p.grav, 0, 0, 0⟩).VX := rfl
    rw [e0, f_VX]
    simp [xVec.zero]
  have hpos := mul_pos sin_three_tenths_pos hg
  refine ⟨e, by rw [e]; linarith, ?_⟩
  intro h
  have h2 := congrArg xVec.VX h
  rw [e] at h2
  simp only [xVec.zero] at h2
  linarith

theorem derivatives_equilibrium_VX_witness :
    (0 : ℝ) < (sampleParams : Params ℝ).grav ∧
    (derivatives ⟨Real.sin, Real.cos, Real.tan⟩ (sampleParams : Params ℝ) Mat3.identity
        xVec.zero ⟨(sampleParams : Params ℝ).mass * (sampleParams : Params ℝ).grav, 0, 0, 0⟩
        xVec.zero).2 ≠ xVec.zero :=
  ⟨by norm_num [sampleParams],
    (derivatives_equilibrium_VX sampleParams Mat3.identity xVec.zero
      (by norm_num [sampleParams])).2.2⟩

/-- C2 (the code at the hover input): on a freshly constructed drone with positive
mass and gravity and non-negative drag, one call `sendMotorCmds((c,c,c,c))` with
the hover command `4*k1*c = mass*grav` leaves `VX` at most `-0.029 * grav`, so
the state does not stay at zero. -/
theorem hover_step_VX_neg (p : Params ℝ) (ws : RK4 ℝ) (c : ℝ)
    (hm : 0 < p.mass) (hg : 0 < p.grav) (hmu : 0 ≤ p.mu)
    (_hc : 4 * p.k1 * c = p.mass * p.grav) :
    (((Drone.init p ws).sendMotorCmds ⟨Real.sin, Real.cos, Real.tan⟩
      ⟨c, c, c, c⟩).getStates).VX ≤ -(29 / 1000) * p.grav ∧
    (((Drone.init p ws).sendMotorCmds ⟨Real.sin, Real.cos, Real.tan⟩
      ⟨c, c, c, c⟩).getStates).VX < 0 := by
  obtain ⟨-, h2, h3, h4⟩ := mixer_equal p ws c
  obtain ⟨-, le⟩ := calls_affine_le ⟨Real.sin, Real.cos, Real.tan⟩ p ws
    ⟨c, c, c, c⟩ xVec.levelInv levelInv_closed ⟨rfl, rfl, rfl, rfl⟩
    (f_levelInv _ _ _ h2 h3 h4) (fun y => y.VX) coord_VX rfl
    (-(Real.sin (3 / 10) * p.grav)) (p.mu / p.mass)
    (fun y hy => f_VX_of_still _ _ _ y hy.2.2.1 hy.2.2.2)
    (by have := mul_pos sin_three_tenths_pos hg; linarith) (div_nonneg hmu hm.le) 1
  have e : (Drone.init p ws).sendMotorCmdsN ⟨Real.sin, Real.cos, Real.tan⟩ ⟨c, c, c, c⟩ 1 =
      (Drone.init p ws).sendMotorCmds ⟨Real.sin, Real.cos, Real.tan⟩ ⟨c, c, c, c⟩ := rfl
  rw [e] at le
  simp only [Drone.getStates]
  have := mul_lt_mul_of_pos_right sin_three_tenths_gt hg
  norm_num at le
  constructor <;> nlinarith

theorem hover_step_VX_neg_witness :
    (((Drone.init (sampleParams : Params ℝ) sampleWs).sendMotorCmds
      ⟨Real.sin, Real.cos, Real.tan⟩ ⟨11 / 20, 11 / 20, 11 / 20, 11 / 20⟩).getStates).VX < 0 :=
  (hover_step_VX_neg sampleParams sampleWs (11 / 20) (by norm_num [sampleParams])
    (by norm_num [sampleParams]) (by norm_num [sampleParams])
    (by norm_num [sampleParams])).2

/-- C3: on a drone reached from construction by any sequence of calls,
`sendMotorCmds(u)` is one classical RK4 step (`rk4`) of size `dt = 0.1` for the
derivative function, with the force/torque vector `F = mixer * u` (the mixer
being the one the constructor built) computed once and used in all four stages,
and `getStates` returns that state.  The derivative function `f` is the output
of `Drone::derivatives` on the drone, whatever the output argument held
before. -/
theorem sendMotorCmds_rk4 {K : Type} [Field K] (m : Libm K) (p : Params K) (ws : RK4 K)
    (cmds : List (uVec K)) (u : uVec K) :
    (((Drone.init p ws).run m cmds).sendMotorCmds m u).getStates =
      rk4 (fun y => f m (Drone.init p ws).m_p y ((Drone.init p ws).m_p.mixer.mulVec u))
        (1 / 10) ((Drone.init p ws).run m cmds).getStates ∧
    ((Drone.init p ws).run m cmds).m_rk4.dt = 1 / 10 ∧
    ((Drone.init p ws).run m cmds).m_p.mixer = (Drone.init p ws).m_p.mixer ∧
    ∀ (y : xVec K) (F : uVec K) (k : xVec K),
      (derivatives m ((Drone.init p ws).run m cmds).m_p
        ((Drone.init p ws).run m cmds).m_att_R y F k).2 = f m (Drone.init p ws).m_p y F := by
  obtain ⟨h1, h2, h3⟩ := run_inv m p ws cmds
  refine ⟨?_, h2, by rw [h1], ?_⟩
  · rw [Drone.getStates, sendMotorCmds_states m _ u h3, h1, h2]
    rfl
  · intro y F k
    rw [derivatives_snd m _ _ y F k h3, h1]

/-- C5: from the all-zero state of a freshly constructed drone with diagonal
inertia and inverse inertia (`zz` entry of the inverse positive) and `k2 > 0`,
for every `c`, every offset `d > 0` and every `n ≥ 1`: after `n` calls of
`sendMotorCmds((c+d, c-d, c+d, c-d))` yaw angle `RZ` and yaw rate `WZ` are
strictly negative while `RX`, `RY`, `WX`, `WY` are exactly zero, and after `n`
calls of the mirrored command `RZ` and `WZ` are the negatives of those values. -/
theorem yaw_sign_mirror (p : Params ℝ) (ws : RK4 ℝ) (c d : ℝ) (n : Nat)
    (hp : p.diagonal) (hJ : 0 < p.inertia_inv.m22) (hk : 0 < p.k2) (hd : 0 < d)
    (hn : 1 ≤ n) :
    (((Drone.init p ws).sendMotorCmdsN ⟨Real.sin, Real.cos, Real.tan⟩
      ⟨c + d, c - d, c + d, c - d⟩ n).getStates).RZ < 0 ∧
    (((Drone.init p ws).sendMotorCmdsN ⟨Real.sin, Real.cos, Real.tan⟩
      ⟨c + d, c - d, c + d, c - d⟩ n).getStates).WZ < 0 ∧
    (((Drone.init p ws).sendMotorCmdsN ⟨Real.sin, Real.cos, Real.tan⟩
      ⟨c + d, c - d, c + d, c - d⟩ n).getStates).RX = 0 ∧
    (((Drone.init p ws).sendMotorCmdsN ⟨Real.sin, Real.cos, Real.tan⟩
      ⟨c + d, c - d, c + d, c - d⟩ n).getStates).RY = 0 ∧
    (((Drone.init p ws).sendMotorCmdsN ⟨Real.sin, Real.cos, Real.tan⟩
      ⟨c + d, c - d, c + d, c - d⟩ n).getStates).WX = 0 ∧
    (((Drone.init p ws).sendMotorCmdsN ⟨Real.sin, Real.cos, Real.tan⟩
      ⟨c + d, c - d, c + d, c - d⟩ n).getStates).WY = 0 ∧
    (((Drone.init p ws).sendMotorCmdsN ⟨Real.sin, Real.cos, Real.tan⟩
      ⟨c - d, c + d, c - d, c + d⟩ n).getStates).RZ =
      -(((Drone.init p ws).sendMotorCmdsN ⟨Real.sin, Real.cos, Real.tan⟩
        ⟨c + d, c - d, c + d, c - d⟩ n).getStates).RZ ∧
    (((Drone.init p ws).sendMotorCmdsN ⟨Real.sin, Real.cos, Real.tan⟩
      ⟨c - d, c + d, c - d, c + d⟩ n).getStates).WZ =
      -(((Drone.init p ws).sendMotorCmdsN ⟨Real.sin, Real.cos, Real.tan⟩
        ⟨c + d, c - d, c + d, c - d⟩ n).getStates).WZ := by
  obtain ⟨⟨i1, i2, i3, i4⟩, w, r⟩ :=
    yaw_calls p ws ⟨c + d, c - d, c + d, c - d⟩ hp (by ring) (by ring) n
  obtain ⟨-, w', r'⟩ :=
    yaw_calls p ws ⟨c - d, c + d, c - d, c + d⟩ hp (by ring) (by ring) n
  simp only [Drone.getStates]
  have hn' : (1 : ℝ) ≤ n := by exact_mod_cast hn
  have hα : p.inertia_inv.m22 * (p.k2 * (-(c + d) + (c - d) - (c + d) + (c - d))) < 0 := by
    have : 0 < p.inertia_inv.m22 * (p.k2 * (4 * d)) := by positivity
    nlinarith
  refine ⟨?_, ?_, i1, i2, i3, i4, ?_, ?_⟩
  · rw [r]
    have : (0 : ℝ) < (n : ℝ) ^ 2 / 200 := by positivity
    nlinarith
  · rw [w]
    have : (0 : ℝ) < (n : ℝ) / 10 := by positivity
    nlinarith
  · rw [r, r']; ring
  · rw [w, w']; ring

theorem yaw_sign_mirror_witness :
    (((Drone.init (sampleParams : Params ℝ) sampleWs).sendMotorCmdsN
      ⟨Real.sin, Real.cos, Real.tan⟩
      ⟨11 / 20 + 1 / 10, 11 / 20 - 1 / 10, 11 / 20 + 1 / 10, 11 / 20 - 1 / 10⟩
      500).getStates).RZ < 0 :=
  (yaw_sign_mirror sampleParams sampleWs (11 / 20) (1 / 10) 500
    (by simp [Params.diagonal, sampleParams]) (by norm_num [sampleParams])
    (by norm_num [sampleParams]) (by norm_num) (by norm_num)).1

/-- C6 (the code in the yaw test): with diagonal inertia, after 500 calls of
`sendMotorCmds((0.65, 0.45, 0.65, 0.45))` at the constructor's `dt = 0.1` the
yaw angle is exactly 25 times the yaw rate, so `RZ` and `WZ` cannot be within
`1e-6` of `-0.408163` and `-0.816327`, whatever `k2` and the inertia are; the
same holds for the mirrored command and the positive reference values. -/
theorem yaw_reference_unreachable (p : Params ℝ) (ws : RK4 ℝ) (hp : p.diagonal) :
    (((Drone.init p ws).sendMotorCmdsN ⟨Real.sin, Real.cos, Real.tan⟩
      ⟨13 / 20, 9 / 20, 13 / 20, 9 / 20⟩ 500).getStates).RZ =
      25 * (((Drone.init p ws).sendMotorCmdsN ⟨Real.sin, Real.cos, Real.tan⟩
        ⟨13 / 20, 9 / 20, 13 / 20, 9 / 20⟩ 500).getStates).WZ ∧
    ¬ (|(((Drone.init p ws).sendMotorCmdsN ⟨Real.sin, Real.cos, Real.tan⟩
          ⟨13 / 20, 9 / 20, 13 / 20, 9 / 20⟩ 500).getStates).RZ - (-408163 / 1000000)|
          ≤ 1 / 1000000 ∧
        |(((Drone.init p ws).sendMotorCmdsN ⟨Real.sin, Real.cos, Real.tan⟩
          ⟨13 / 20, 9 / 20, 13 / 20, 9 / 20⟩ 500).getStates).WZ - (-816327 / 1000000)|
          ≤ 1 / 1000000) ∧
    ¬ (|(((Drone.init p ws).sendMotorCmdsN ⟨Real.sin, Real.cos, Real.tan⟩
          ⟨9 / 20, 13 / 20, 9 / 20, 13 / 20⟩ 500).getStates).RZ - 408163 / 1000000|
          ≤ 1 / 1000000 ∧
        |(((Drone.init p ws).sendMotorCmdsN ⟨Real.sin, Real.cos, Real.tan⟩
          ⟨9 / 20, 13 / 20, 9 / 20, 13 / 20⟩ 500).getStates).WZ - 816327 / 1000000|
          ≤ 1 / 1000000) := by
  obtain ⟨-, w, r⟩ :=
    yaw_calls p ws ⟨13 / 20, 9 / 20, 13 / 20, 9 / 20⟩ hp (by norm_num) (by norm_num) 500
  obtain ⟨-, w', r'⟩ :=
    yaw_calls p ws ⟨9 / 20, 13 / 20, 9 / 20, 13 / 20⟩ hp (by norm_num) (by norm_num) 500
  simp only [Drone.getStates]
  have e : ((Drone.init p ws).sendMotorCmdsN ⟨Real.sin, Real.cos, Real.tan⟩
      ⟨13 / 20, 9 / 20, 13 / 20, 9 / 20⟩ 500).m_states.RZ =
      25 * ((Drone.init p ws).sendMotorCmdsN ⟨Real.sin, Real.cos, Real.tan⟩
        ⟨13 / 20, 9 / 20, 13 / 20, 9 / 20⟩ 500).m_states.WZ := by
    rw [w, r]; push_cast; ring
  have e' : ((Drone.init p ws).sendMotorCmdsN ⟨Real.sin, Real.cos, Real.tan⟩
      ⟨9 / 20, 13 / 20, 9 / 20, 13 / 20⟩ 500).m_states.RZ =
      25 * ((Drone.init p ws).sendMotorCmdsN ⟨Real.sin, Real.cos, Real.tan⟩
        ⟨9 / 20, 13 / 20, 9 / 20, 13 / 20⟩ 500).m_states.WZ := by
    rw [w', r']; push_cast; ring
  refine ⟨e, ?_, ?_⟩
  · rintro ⟨h1, h2⟩
    rw [e] at h1
    rw [abs_le] at h1 h2
    linarith [h1.1, h1.2, h2.1, h2.2]
  · rintro ⟨h1, h2⟩
    rw [e'] at h1
    rw [abs_le] at h1 h2
    linarith [h1.1, h1.2, h2.1, h2.2]

theorem yaw_reference_unreachable_witness :
    (sampleParams : Params ℝ).diagonal ∧
    (((Drone.init (sampleParams : Params ℝ) sampleWs).sendMotorCmdsN
      ⟨Real.sin, Real.cos, Real.tan⟩ ⟨13 / 20, 9 / 20, 13 / 20, 9 / 20⟩ 500).getStates).RZ =
      25 * (((Drone.init (sampleParams : Params ℝ) sampleWs).sendMotorCmdsN
        ⟨Real.sin, Real.cos, Real.tan⟩ ⟨13 / 20, 9 / 20, 13 / 20, 9 / 20⟩ 500).getStates).WZ :=
  ⟨by simp [Params.diagonal, sampleParams],
    (yaw_reference_unreachable sampleParams sampleWs
      (by simp [Params.diagonal, sampleParams])).1⟩

/-- C7 (the code in the roll scenario): on a freshly constructed drone with
diagonal inertia, positive mass and gravity and non-negative drag, after
`n ≥ 1` calls of `sendMotorCmds((c, c-d, c, c+d))` the pitch, yaw, pitch rate and
yaw rate are zero but the forward velocity `VX` is at most `-0.029 * n * grav`,
strictly negative and not zero: the gravity term is rotated by the constant
pitch 0.3. -/
theorem roll_VX_neg (p : Params ℝ) (ws : RK4 ℝ) (c d : ℝ) (n : Nat)
    (hp : p.diagonal) (hm : 0 < p.mass) (hg : 0 < p.grav) (hmu : 0 ≤ p.mu) (hn : 1 ≤ n) :
    (((Drone.init p ws).sendMotorCmdsN ⟨Real.sin, Real.cos, Real.tan⟩
      ⟨c, c - d, c, c + d⟩ n).getStates).rollInv ∧
    (((Drone.init p ws).sendMotorCmdsN ⟨Real.sin, Real.cos, Real.tan⟩
      ⟨c, c - d, c, c + d⟩ n).getStates).VX ≤ -(29 / 1000) * n * p.grav ∧
    (((Drone.init p ws).sendMotorCmdsN ⟨Real.sin, Real.cos, Real.tan⟩
      ⟨c, c - d, c, c + d⟩ n).getStates).VX < 0 := by
  obtain ⟨-, -, m3, m4⟩ := mixer_entries p ws ⟨c, c - d, c, c + d⟩
  have z3 : ((Drone.init p ws).m_p.mixer.mulVec ⟨c, c - d, c, c + d⟩).U3 = 0 := by
    rw [m3]; ring
  have z4 : ((Drone.init p ws).m_p.mixer.mulVec ⟨c, c - d, c, c + d⟩).U4 = 0 := by
    rw [m4]; ring
  obtain ⟨h1, le⟩ := calls_affine_le ⟨Real.sin, Real.cos, Real.tan⟩ p ws
    ⟨c, c - d, c, c + d⟩ xVec.rollInv rollInv_closed ⟨rfl, rfl, rfl, rfl⟩
    (f_rollInv _ _ (init_diagonal p ws hp) _ z3 z4) (fun y => y.VX) coord_VX rfl
    (-(Real.sin (3 / 10) * p.grav)) (p.mu / p.mass)
    (fun y hy => f_VX_of_still _ _ _ y hy.2.2.1 hy.2.2.2)
    (by have := mul_pos sin_three_tenths_pos hg; linarith) (div_nonneg hmu hm.le) n
  simp only [Drone.getStates]
  have hn' : (1 : ℝ) ≤ n := by exact_mod_cast hn
  have hs := mul_lt_mul_of_pos_right sin_three_tenths_gt hg
  have hng : 0 < (n : ℝ) * p.grav := by positivity
  have key : (n : ℝ) / 10 * -(Real.sin (3 / 10) * p.grav) ≤ -(29 / 1000) * n * p.grav := by
    have : 0 ≤ (n : ℝ) / 10 * (Real.sin (3 / 10) * p.grav - 29 / 100 * p.grav) :=
      mul_nonneg (by positivity) (by linarith)
    nlinarith
  refine ⟨h1, by linarith, ?_⟩
  have : -(29 / 1000) * n * p.grav < 0 := by nlinarith
  linarith

theorem roll_VX_neg_witness :
    (((Drone.init (sampleParams : Params ℝ) sampleWs).sendMotorCmdsN
      ⟨Real.sin, Real.cos, Real.tan⟩ ⟨11 / 20, 11 / 20 - 1 / 10, 11 / 20, 11 / 20 + 1 / 10⟩
      100).getStates).VX < 0 :=
  (roll_VX_neg sampleParams sampleWs (11 / 20) (1 / 10) 100
    (by simp [Params.diagonal, sampleParams]) (by norm_num [sampleParams])
    (by norm_num [sampleParams]) (by norm_num [sampleParams]) (by norm_num)).2.2

/-- C9 (the code's velocity block): the velocity block of `Drone::derivatives` is
`v × ω + rotated_grav - (e3*u1 - mu*v)/mass`, the drag term entering with the
sign of the velocity; at zero angular rate, replacing `v` by `v + dv` changes
the velocity derivative by `+(mu/mass)*dv`.  With the sample parameters, one
unit of forward velocity raises the forward acceleration by `1/30`. -/
theorem velocity_block_drag_sign :
    (∀ (K : Type) [Field K] (m : Libm K) (p : Params K) (x : xVec K) (u : uVec K),
      (f m p x u).segV =
        ((x.segV.cross x.segW).add (derivatives_rotated_grav m p x)).sub
          (((e3.scale u.U1).sub (Vec3.smul p.mu x.segV)).sdiv p.mass)) ∧
    (∀ (K : Type) [Field K] (m : Libm K) (p : Params K) (x : xVec K) (u : uVec K)
      (dx dy dz : K),
      ((f m p { x with VX := x.VX + dx, VY := x.VY + dy, VZ := x.VZ + dz,
                       WX := 0, WY := 0, WZ := 0 } u).segV.sub
        (f m p { x with WX := 0, WY := 0, WZ := 0 } u).segV) =
        Vec3.smul (p.mu / p.mass) ⟨dx, dy, dz⟩) ∧
    (f ⟨Real.sin, Real.cos, Real.tan⟩ (sampleParams : Params ℝ)
        { (xVec.zero : xVec ℝ) with VX := 1 } ⟨0, 0, 0, 0⟩).VX -
      (f ⟨Real.sin, Real.cos, Real.tan⟩ (sampleParams : Params ℝ) xVec.zero
        ⟨0, 0, 0, 0⟩).VX = 1 / 30 := by
  refine ⟨fun K _ m p x u => rfl, fun K _ m p x u dx dy dz => ?_, ?_⟩
  · simp only [xVec.segV, f_VX, f_VY, f_VZ, Vec3.sub, Vec3.smul, Vec3.mk.injEq]
    refine ⟨by ring, by ring, by ring⟩
  · simp only [f_VX, xVec.zero, sampleParams]
    norm_num

/-- C10 (the code's gravity term): the gravity term that `Drone::derivatives` adds
to the velocity derivative is the world gravity rotated by the roll state and
the constant pitch 0.3,
`(-grav*sin 0.3, grav*cos 0.3*sin(roll), grav*cos 0.3*cos(roll))`; it does not
depend on the pitch state, and for positive gravity at the all-zero state its
first entry differs from the claimed `-grav*sin(pitch)`. -/
theorem rotated_grav_constant_pitch (p : Params ℝ) (hg : 0 < p.grav) :
    (∀ (R : Mat3 ℝ) (x : xVec ℝ) (u : uVec ℝ) (k : xVec ℝ),
      (derivatives ⟨Real.sin, Real.cos, Real.tan⟩ p R x u k).2.segV =
        ((x.segV.cross x.segW).add
          (derivatives_rotated_grav ⟨Real.sin, Real.cos, Real.tan⟩ p x)).sub
          (((e3.scale u.U1).sub (Vec3.smul p.mu x.segV)).sdiv p.mass)) ∧
    (∀ x : xVec ℝ, derivatives_rotated_grav ⟨Real.sin, Real.cos, Real.tan⟩ p x =
      ⟨-(p.grav * Real.sin (3 / 10)), p.grav * Real.cos (3 / 10) * Real.sin x.RX,
        p.grav * Real.cos (3 / 10) * Real.cos x.RX⟩) ∧
    (∀ (x : xVec ℝ) (θ : ℝ),
      derivatives_rotated_grav ⟨Real.sin, Real.cos, Real.tan⟩ p { x with RY := θ } =
        derivatives_rotated_grav ⟨Real.sin, Real.cos, Real.tan⟩ p x) ∧
    (derivatives_rotated_grav ⟨Real.sin, Real.cos, Real.tan⟩ p xVec.zero).x ≠
      -(p.grav * Real.sin (xVec.zero : xVec ℝ).RY) := by
  have e : ∀ x : xVec ℝ, derivatives_rotated_grav ⟨Real.sin, Real.cos, Real.tan⟩ p x =
      ⟨-(p.grav * Real.sin (3 / 10)), p.grav * Real.cos (3 / 10) * Real.sin x.RX,
        p.grav * Real.cos (3 / 10) * Real.cos x.RX⟩ := by
    intro x
    simp only [derivatives_rotated_grav, Quat.rotp, Quat.from_euler, Mat3.transpose,
      Mat3.mulVec, e3, Vec3.scale, Vec3.mk.injEq]
    refine ⟨by ring, by ring, by ring⟩
  refine ⟨fun R x u k => rfl, e, fun x θ => by rw [e, e], ?_⟩
  rw [e]
  have := mul_pos hg sin_three_tenths_pos
  simp only [xVec.zero, Real.sin_zero, mul_zero, neg_zero]
  linarith

theorem rotated_grav_constant_pitch_witness :
    (derivatives_rotated_grav ⟨Real.sin, Real.cos, Real.tan⟩ (sampleParams : Params ℝ)
      xVec.zero).x ≠ -((sampleParams : Params ℝ).grav * Real.sin (xVec.zero : xVec ℝ).RY) :=
  (rotated_grav_constant_pitch sampleParams (by norm_num [sampleParams])).2.2.2

/-- C11: for every state, the position block of `Drone::derivatives` is the
body-to-world rotation of the body velocity with its third component negated,
the rotation being built from the roll state, the yaw state and the constant
pitch 0.3; two states that differ only in the pitch entry have the same
position derivative. -/
theorem position_block_fixed_pitch {K : Type} [Field K] (m : Libm K) (p : Params K)
    (R : Mat3 K) (x : xVec K) (u : uVec K) (k : xVec K) :
    (derivatives m p R x u k).2.segP =
      ⟨((Quat.from_euler m x.RX (3 / 10) x.RZ).rota x.segV).x,
       ((Quat.from_euler m x.RX (3 / 10) x.RZ).rota x.segV).y,
       -((Quat.from_euler m x.RX (3 / 10) x.RZ).rota x.segV).z⟩ ∧
    ∀ θ : K, (derivatives m p R { x with RY := θ } u k).2.segP =
      (derivatives m p R x u k).2.segP := by
  refine ⟨?_, fun θ => rfl⟩
  show (f m p x u).segP = _
  simp only [xVec.segP, f_PX, f_PY, f_PZ, Quat.rota, Quat.from_euler, Mat3.mulVec,
    xVec.segV, Vec3.mk.injEq]
  refine ⟨trivial, trivial, by ring⟩

/-- C13: for every state and force/torque vector the angular-rate block of
`Drone::derivatives` is `inertia_inv * (tau - omega × (inertia * omega))` with
`tau` the three torque entries; for a diagonal inertia and an angular rate along
a single body axis the block is `inertia_inv * tau`. -/
theorem angular_rate_block (K : Type) [Field K] (m : Libm K) (p : Params K)
    (R : Mat3 K) (x : xVec K) (u : uVec K) (k : xVec K)
    (hJ : p.inertia.isDiag) (hx : x.singleAxisRate) :
    (∀ (y : xVec K) (F : uVec K) (k0 : xVec K), (derivatives m p R y F k0).2.segW =
      p.inertia_inv.mulVec (F.segTau.sub (y.segW.cross (p.inertia.mulVec y.segW)))) ∧
    x.segW.cross (p.inertia.mulVec x.segW) = ⟨0, 0, 0⟩ ∧
    (derivatives m p R x u k).2.segW = p.inertia_inv.mulVec u.segTau := by
  obtain ⟨d1, d2, d3, d4, d5, d6⟩ := hJ
  have hc : x.segW.cross (p.inertia.mulVec x.segW) = ⟨0, 0, 0⟩ := by
    simp only [xVec.segW, Vec3.cross, Mat3.mulVec, d1, d2, d3, d4, d5, d6, Vec3.mk.injEq]
    rcases hx with ⟨h1, h2⟩ | ⟨h1, h2⟩ | ⟨h1, h2⟩ <;> simp [h1, h2]
  refine ⟨fun y F k0 => rfl, hc, ?_⟩
  show p.inertia_inv.mulVec (u.segTau.sub (x.segW.cross (p.inertia.mulVec x.segW))) = _
  rw [hc]
  simp [Vec3.sub]

theorem angular_rate_block_witness :
    (derivatives ⟨Real.sin, Real.cos, Real.tan⟩ (sampleParams : Params ℝ) Mat3.identity
      { (xVec.zero : xVec ℝ) with WZ := 2 } ⟨1, 2, 3, 4⟩ xVec.zero).2.segW =
      (sampleParams : Params ℝ).inertia_inv.mulVec (uVec.segTau ⟨1, 2, 3, 4⟩) :=
  (angular_rate_block ℝ ⟨Real.sin, Real.cos, Real.tan⟩ sampleParams Mat3.identity
    { (xVec.zero : xVec ℝ) with WZ := 2 } ⟨1, 2, 3, 4⟩ xVec.zero
    (by simp [Mat3.isDiag, sampleParams])
    (Or.inr (Or.inr ⟨rfl, rfl⟩))).2.2

/-- C15: on a drone reached from construction by any sequence of calls, the
force/torque vector `mixer * u` used by `sendMotorCmds` is
`(k1*(u1+u2+u3+u4), arm_len*k1*(u4-u2), arm_len*k1*(u1-u3), k2*(-u1+u2-u3+u4))`;
four equal commands `c` give thrust `4*k1*c` and zero roll, pitch and yaw torque,
and for `k1 ≠ 0` the thrust balances the weight exactly for
`c = mass*grav/(4*k1)`. -/
theorem mixer_map (p : Params ℝ) (ws : RK4 ℝ) (m : Libm ℝ) (cmds : List (uVec ℝ))
    (hk : p.k1 ≠ 0) :
    (∀ u : uVec ℝ, ((Drone.init p ws).run m cmds).m_p.mixer.mulVec u = mixerMap p u) ∧
    (∀ c : ℝ, ((Drone.init p ws).run m cmds).m_p.mixer.mulVec ⟨c, c, c, c⟩ =
      ⟨4 * p.k1 * c, 0, 0, 0⟩) ∧
    (∀ c : ℝ, (((Drone.init p ws).run m cmds).m_p.mixer.mulVec ⟨c, c, c, c⟩).U1 =
      p.mass * p.grav ↔ c = p.mass * p.grav / (4 * p.k1)) := by
  have h1 := (run_inv m p ws cmds).1
  have e : ∀ u : uVec ℝ,
      ((Drone.init p ws).run m cmds).m_p.mixer.mulVec u = mixerMap p u := by
    intro u
    rw [h1]
    obtain ⟨a1, a2, a3, a4⟩ := mixer_entries p ws u
    cases hu : (Drone.init p ws).m_p.mixer.mulVec u with
    | mk v1 v2 v3 v4 =>
      rw [hu] at a1 a2 a3 a4
      simp only at a1 a2 a3 a4
      simp only [mixerMap, a1, a2, a3, a4]
  refine ⟨e, fun c => ?_, fun c => ?_⟩
  · rw [e]
    simp only [mixerMap, uVec.mk.injEq]
    refine ⟨by ring, by ring, by ring, by ring⟩
  · rw [e]
    simp only [mixerMap]
    have h4 : (4 : ℝ) * p.k1 ≠ 0 := mul_ne_zero (by norm_num) hk
    rw [eq_div_iff h4]
    constructor <;> intro h <;> linarith

theorem mixer_map_witness :
    ((Drone.init (sampleParams : Params ℝ) sampleWs).run ⟨Real.sin, Real.cos, Real.tan⟩
      []).m_p.mixer.mulVec ⟨11 / 20, 11 / 20, 11 / 20, 11 / 20⟩ =
      ⟨4 * (sampleParams : Params ℝ).k1 * (11 / 20), 0, 0, 0⟩ :=
  (mixer_map sampleParams sampleWs ⟨Real.sin, Real.cos, Real.tan⟩ []
    (by norm_num [sampleParams])).2.1 (11 / 20)

/-- C16: for every state `x` and force/torque vector `u`,
`derivatives(x,u) - derivatives(x,0)` has zero position and attitude blocks,
velocity block `(0, 0, -u1/mass)` and angular-rate block
`inertia_inv * (u2,u3,u4)`: the derivative function is affine in the
force/torque vector, which enters the velocity and angular-rate rows only. -/
theorem force_torque_enters_affinely {K : Type} [Field K] (m : Libm K) (p : Params K)
    (R : Mat3 K) (x : xVec K) (u : uVec K) (k : xVec K) :
    ((derivatives m p R x u k).2.sub (derivatives m p R x ⟨0, 0, 0, 0⟩ k).2).segP =
      ⟨0, 0, 0⟩ ∧
    ((derivatives m p R x u k).2.sub (derivatives m p R x ⟨0, 0, 0, 0⟩ k).2).segR =
      ⟨0, 0, 0⟩ ∧
    ((derivatives m p R x u k).2.sub (derivatives m p R x ⟨0, 0, 0, 0⟩ k).2).segV =
      ⟨0, 0, -u.U1 / p.mass⟩ ∧
    ((derivatives m p R x u k).2.sub (derivatives m p R x ⟨0, 0, 0, 0⟩ k).2).segW =
      p.inertia_inv.mulVec u.segTau := by
  refine ⟨?_, ?_, ?_, ?_⟩
  · simp only [derivatives, xVec.sub, xVec.segP, xVec.setSegP, xVec.setSegR, xVec.setSegV,
      xVec.setSegW, sub_self]
  · simp only [derivatives, xVec.sub, xVec.segR, xVec.setSegP, xVec.setSegR, xVec.setSegV,
      xVec.setSegW, sub_self]
  · simp only [derivatives, xVec.sub, xVec.segV, xVec.setSegP, xVec.setSegR, xVec.setSegV,
      xVec.setSegW, Vec3.sub, Vec3.add, Vec3.sdiv, Vec3.scale, Vec3.smul, e3, Vec3.mk.injEq]
    refine ⟨by ring, by ring, by ring⟩
  · simp only [derivatives, xVec.sub, xVec.segW, xVec.setSegP, xVec.setSegR, xVec.setSegV,
      xVec.setSegW, Vec3.sub, Mat3.mulVec, uVec.segTau, Vec3.mk.injEq]
    refine ⟨by ring, by ring, by ring⟩

/-- C12: on a drone reached from construction by any sequence of calls, for
every state with `cos(pitch) ≠ 0` the attitude block of `Drone::derivatives` is
the standard body-rate-to-Euler-rate transform applied to the angular rate and
the two divisions of the block, both by `cos(pitch)`, succeed; for every state,
a division of the block is by zero exactly when `cos(pitch) = 0`. -/
theorem attitude_block_singularity {K : Type} [Field K] [DecidableEq K] (m : Libm K)
    (p : Params K) (ws : RK4 K) (cmds : List (uVec K)) (x : xVec K) (u : uVec K)
    (k : xVec K) (h : m.cos x.RY ≠ 0) :
    (derivatives m ((Drone.init p ws).run m cmds).m_p
      ((Drone.init p ws).run m cmds).m_att_R x u k).2.segR =
      (eulerRateMatrix m x.RX x.RY).mulVec x.segW ∧
    derivatives_att_checked m ((Drone.init p ws).run m cmds).m_att_R x =
      some (eulerRateMatrix m x.RX x.RY, (eulerRateMatrix m x.RX x.RY).mulVec x.segW) ∧
    (derivatives m ((Drone.init p ws).run m cmds).m_p
      ((Drone.init p ws).run m cmds).m_att_R x u k).1 = eulerRateMatrix m x.RX x.RY ∧
    ∀ y : xVec K,
      derivatives_att_checked m ((Drone.init p ws).run m cmds).m_att_R y = none ↔
        m.cos y.RY = 0 := by
  obtain ⟨-, -, c0, c1, c2⟩ := run_inv m p ws cmds
  have eR : (derivatives m ((Drone.init p ws).run m cmds).m_p
      ((Drone.init p ws).run m cmds).m_att_R x u k).1 = eulerRateMatrix m x.RX x.RY := by
    simp only [derivatives, Mat3.setBlock32, eulerRateMatrix, c0, c1, c2]
  refine ⟨?_, ?_, eR, fun y => ?_⟩
  · rw [← eR]
    rfl
  · simp only [derivatives_att_checked, divChecked, if_neg h, Option.bind_eq_bind,
      Option.some_bind, Mat3.setBlock32, eulerRateMatrix, c0, c1, c2]
  · by_cases hy : m.cos y.RY = 0
    · simp [derivatives_att_checked, divChecked, hy]
    · simp [derivatives_att_checked, divChecked, hy]

theorem attitude_block_singularity_witness :
    Real.cos (xVec.zero : xVec ℝ).RY ≠ 0 ∧
    derivatives_att_checked ⟨Real.sin, Real.cos, Real.tan⟩
      ((Drone.init (sampleParams : Params ℝ) sampleWs).run ⟨Real.sin, Real.cos, Real.tan⟩
        []).m_att_R xVec.zero =
      some (eulerRateMatrix ⟨Real.sin, Real.cos, Real.tan⟩ (xVec.zero : xVec ℝ).RX
          (xVec.zero : xVec ℝ).RY,
        (eulerRateMatrix ⟨Real.sin, Real.cos, Real.tan⟩ (xVec.zero : xVec ℝ).RX
          (xVec.zero : xVec ℝ).RY).mulVec (xVec.zero : xVec ℝ).segW) :=
  ⟨by simp [xVec.zero],
    (attitude_block_singularity ⟨Real.sin, Real.cos, Real.tan⟩ sampleParams sampleWs []
      xVec.zero ⟨0, 0, 0, 0⟩ xVec.zero (by simp [xVec.zero])).2.1⟩

/-- C14: on a drone reached from construction by any sequence of
`sendMotorCmds` calls, followed by any calls of `derivatives`, the first column
of `m_att_R` is `(1, 0, 0)` and `m_states` is what it was before the calls of
`derivatives`; every call of `derivatives` returns the value `f(x, forceTorque)`
of one function of its arguments and the parameters, whatever the output
argument held before; the four stage results stored by `sendMotorCmds` are that
function at the four stage states. -/
theorem derivatives_pure {K : Type} [Field K] (m : Libm K) (p : Params K) (ws : RK4 K)
    (cmds : List (uVec K)) (calls : List (xVec K × uVec K × xVec K)) :
    ((Drone.init p ws).run m cmds).m_att_R.col0Unit ∧
    (((Drone.init p ws).run m cmds).callsDerivatives m calls).m_att_R.col0Unit ∧
    (((Drone.init p ws).run m cmds).callsDerivatives m calls).m_states =
      ((Drone.init p ws).run m cmds).m_states ∧
    (∀ (x : xVec K) (F : uVec K) (k : xVec K),
      ((((Drone.init p ws).run m cmds).callsDerivatives m calls).callDerivatives m x F k).2 =
        f m (Drone.init p ws).m_p x F ∧
      ((((Drone.init p ws).run m cmds).callsDerivatives m calls).callDerivatives m x F
        k).1.m_states = ((Drone.init p ws).run m cmds).m_states) ∧
    (∀ (q : Params K) (R : Mat3 K) (x : xVec K) (F : uVec K) (k k0 : xVec K),
      (derivatives m q R x F k).2 = (derivatives m q R x F k0).2) ∧
    ∀ u : uVec K,
      (((Drone.init p ws).run m cmds).sendMotorCmds m u).m_rk4.k1 =
        f m (Drone.init p ws).m_p ((Drone.init p ws).run m cmds).m_states
          ((Drone.init p ws).m_p.mixer.mulVec u) ∧
      (((Drone.init p ws).run m cmds).sendMotorCmds m u).m_rk4.k2 =
        f m (Drone.init p ws).m_p
          (((Drone.init p ws).run m cmds).m_states.add (xVec.smul ((1 / 10) / 2)
            (((Drone.init p ws).run m cmds).sendMotorCmds m u).m_rk4.k1))
          ((Drone.init p ws).m_p.mixer.mulVec u) ∧
      (((Drone.init p ws).run m cmds).sendMotorCmds m u).m_rk4.k3 =
        f m (Drone.init p ws).m_p
          (((Drone.init p ws).run m cmds).m_states.add (xVec.smul ((1 / 10) / 2)
            (((Drone.init p ws).run m cmds).sendMotorCmds m u).m_rk4.k2))
          ((Drone.init p ws).m_p.mixer.mulVec u) ∧
      (((Drone.init p ws).run m cmds).sendMotorCmds m u).m_rk4.k4 =
        f m (Drone.init p ws).m_p
          (((Drone.init p ws).run m cmds).m_states.add (xVec.smul (1 / 10)
            (((Drone.init p ws).run m cmds).sendMotorCmds m u).m_rk4.k3))
          ((Drone.init p ws).m_p.mixer.mulVec u) := by
  obtain ⟨h1, h2, h3⟩ := run_inv m p ws cmds
  obtain ⟨i1, i2, -, i4⟩ := callsDerivatives_inv m ((Drone.init p ws).run m cmds) calls
  refine ⟨h3, i4 h3, i2, fun x F k => ⟨?_, i2⟩, fun q R x F k k0 => rfl, fun u => ?_⟩
  · show (derivatives m _ _ x F k).2 = _
    rw [derivatives_snd m _ _ x F k (i4 h3), i1, h1]
  · have c1 := derivatives_fst_col0 m ((Drone.init p ws).run m cmds).m_p _
      ((Drone.init p ws).run m cmds).m_states
      (((Drone.init p ws).run m cmds).m_p.mixer.mulVec u)
      ((Drone.init p ws).run m cmds).m_rk4.k1 h3
    simp only [Drone.sendMotorCmds]
    rw [h2, h1]
    rw [h1] at c1
    refine ⟨derivatives_snd m _ _ _ _ _ h3, derivatives_snd m _ _ _ _ _ c1,
      derivatives_snd m _ _ _ _ _ ?_, derivatives_snd m _ _ _ _ _ ?_⟩
    · exact derivatives_fst_col0 m _ _ _ _ _ c1
    · exact derivatives_fst_col0 m _ _ _ _ _ (derivatives_fst_col0 m _ _ _ _ _ c1)

/-- C17: for two drones with the same parameters and step size (first column of
`m_att_R` equal to `(1,0,0)`, as after construction) whose states agree on
attitude and angular rate, and two commands whose mixer outputs agree on the
three torque entries, the states after one `sendMotorCmds` call agree on
attitude and angular rate. -/
theorem rotational_decoupled {K : Type} [Field K] (m : Libm K) (d e : Drone K)
    (u v : uVec K) (hp : d.m_p = e.m_p) (hdt : d.m_rk4.dt = e.m_rk4.dt)
    (hd : d.m_att_R.col0Unit) (he : e.m_att_R.col0Unit)
    (hx : d.m_states.rotEq e.m_states)
    (hτ : (d.m_p.mixer.mulVec u).segTau = (e.m_p.mixer.mulVec v).segTau) :
    ((d.sendMotorCmds m u).getStates).rotEq ((e.sendMotorCmds m v).getStates) := by
  rw [Drone.getStates, Drone.getStates, sendMotorCmds_states m d u hd,
    sendMotorCmds_states m e v he, hdt]
  refine rk4_rotEq _ _ (fun y z hyz => ?_) _ _ _ hx
  rw [hp] at hτ ⊢
  exact f_rotEq m _ y z _ _ hyz hτ

theorem rotational_decoupled_witness :
    (((Drone.init (sampleParams : Params ℝ) sampleWs).sendMotorCmds
      ⟨Real.sin, Real.cos, Real.tan⟩ ⟨1, 0, 1, 0⟩).getStates).rotEq
    (({ Drone.init (sampleParams : Params ℝ) sampleWs with
        m_states := { (xVec.zero : xVec ℝ) with PX := 5, VZ := 1 } }.sendMotorCmds
      ⟨Real.sin, Real.cos, Real.tan⟩ ⟨2, 1, 2, 1⟩).getStates) :=
  rotational_decoupled ⟨Real.sin, Real.cos, Real.tan⟩
    (Drone.init (sampleParams : Params ℝ) sampleWs)
    { Drone.init (sampleParams : Params ℝ) sampleWs with
      m_states := { (xVec.zero : xVec ℝ) with PX := 5, VZ := 1 } }
    ⟨1, 0, 1, 0⟩ ⟨2, 1, 2, 1⟩ rfl rfl ⟨rfl, rfl, rfl⟩ ⟨rfl, rfl, rfl⟩
    ⟨rfl, rfl, rfl, rfl, rfl, rfl⟩ (by
      simp only [Drone.init, Mat4.mulVec, uVec.dot, uVec.segTau, sampleParams, Vec3.mk.injEq]
      norm_num)

/-- C18: `Drone::derivatives` does not read the position entries, and one
`sendMotorCmds(u)` step from a state with its position shifted by `D` gives the
step result of the unshifted state with its position shifted by the same `D`,
the nine other entries being equal. -/
theorem position_translation_equivariance {K : Type} [Field K] (m : Libm K)
    (d : Drone K) (D : Vec3 K) (u : uVec K) :
    (∀ (q : Params K) (R : Mat3 K) (x : xVec K) (F : uVec K) (k : xVec K) (a b c : K),
      derivatives m q R { x with PX := a, PY := b, PZ := c } F k =
        derivatives m q R x F k) ∧
    ({ d with m_states := d.m_states.shiftP D }.sendMotorCmds m u).getStates =
      ((d.sendMotorCmds m u).getStates).shiftP D := by
  refine ⟨fun q R x F k a b c => rfl, ?_⟩
  simp only [Drone.sendMotorCmds, Drone.getStates, shiftP_add, derivatives_shiftP]

end Claims

end dyn
